import Mathlib

/-!
Verification of the video-identifier normalization and caching-by-status
workflow of the yt2txt service (src/main.py, src/database.py).

The embedding models:
* `extract_video_id` / `normalize_video_input` (src/main.py) — identifier
  normalization and batch de-duplication;
* the record store operations (src/database.py): `get_video_record`,
  `create_video_record` (insert-or-ignore), `update_video_record`
  (partial field update), `delete_audio_file_path`;
* the `/transcribe` per-item pipeline (src/main.py, `transcribe_videos`),
  with the external collaborators (yt-dlp download, Deepgram transcription)
  given as oracle functions and the filesystem as a set of existing paths.

Machine-level concerns (SQL dialects, timestamps, pydantic validation,
OS-level deletion failures) are outside the embedding; the filesystem is
ideal (removal of an existing file always succeeds), and the record store
keeps exactly the columns the workflow reads or writes.
-/

namespace YT

/-! ### Identifier normalization (src/main.py, extract_video_id) -/

/-- The character class `[a-zA-Z0-9_-]` of the URL patterns. -/
def isIdChar (c : Char) : Bool :=
  c.isAlpha || c.isDigit || c == '_' || c == '-'

/-- The class `[?&=/]` used by the already-canonical test. -/
def isSpecialChar (c : Char) : Bool :=
  c == '?' || c == '&' || c == '=' || c == '/'

/-- Python `str.strip()` on the character list (whitespace both ends). -/
def trimChars (l : List Char) : List Char :=
  ((l.dropWhile Char.isWhitespace).reverse.dropWhile Char.isWhitespace).reverse

/-- Match `([a-zA-Z0-9_-]{11})` at the start of `l`: exactly eleven
class characters (the following character, if any, is unconstrained). -/
def takeId11 (l : List Char) : Option (List Char) :=
  let pre := l.take 11
  if pre.length == 11 && pre.all isIdChar then some pre else none

/-- The alternatives of the first pattern
`(?:youtube\.com/watch\?v=|youtu\.be/|youtube\.com/embed/|youtube\.com/v/|m\.youtube\.com/watch\?v=)`,
in source order. -/
def pat1Alts : List (List Char) :=
  [("youtube.com/watch?v=").data,
   ("youtu.be/").data,
   ("youtube.com/embed/").data,
   ("youtube.com/v/").data,
   ("m.youtube.com/watch?v=").data]

/-- Try the alternation followed by the 11-character group at one
position; on a failed group the regex engine backtracks into the next
alternative at the same position. -/
def tryAltsAt : List (List Char) → List Char → Option (List Char)
  | [], _ => none
  | a :: rest, l =>
    if a.isPrefixOf l then
      match takeId11 (l.drop a.length) with
      | some i => some i
      | none => tryAltsAt rest l
    else tryAltsAt rest l

/-- Search of the first pattern (`re.search`): leftmost position wins. -/
def searchPat1 : List Char → Option (List Char)
  | [] => none
  | c :: rest =>
    match tryAltsAt pat1Alts (c :: rest) with
    | some i => some i
    | none => searchPat1 rest

/-- Match `[&?]v=([a-zA-Z0-9_-]{11})` at the start of `l`. -/
def vParamAt : List Char → Option (List Char)
  | c :: 'v' :: '=' :: rest =>
    if c == '&' || c == '?' then takeId11 rest else none
  | _ => none

/-- The greedy `.*[&?]v=(...)` tail of the second pattern: the dot-star
prefers the latest `[&?]v=` occurrence whose group matches, and cannot
span a newline. -/
def greedyTail : List Char → Option (List Char)
  | [] => none
  | c :: rest =>
    match greedyTail rest with
    | some i => if c == '\n' then vParamAt (c :: rest) else some i
    | none => vParamAt (c :: rest)

/-- Search of the second pattern `youtube\.com/watch\?.*[&?]v=([a-zA-Z0-9_-]{11})`. -/
def searchPat2 : List Char → Option (List Char)
  | [] => none
  | c :: rest =>
    if ("youtube.com/watch?").data.isPrefixOf (c :: rest) then
      match greedyTail ((c :: rest).drop ("youtube.com/watch?").data.length) with
      | some i => some i
      | none => searchPat2 rest
    else searchPat2 rest

/-- Search of the third pattern `youtu\.be/([a-zA-Z0-9_-]{11})`. -/
def searchPat3 : List Char → Option (List Char)
  | [] => none
  | c :: rest =>
    if ("youtu.be/").data.isPrefixOf (c :: rest) then
      match takeId11 ((c :: rest).drop ("youtu.be/").data.length) with
      | some i => some i
      | none => searchPat3 rest
    else searchPat3 rest

/-- Core of `extract_video_id` on the stripped character list: the
already-canonical test, then the three patterns in order, then the
fallback returning the stripped input. -/
def extractIdCore (t : List Char) : List Char :=
  if t.any isSpecialChar then
    match searchPat1 t with
    | some i => i
    | none =>
      match searchPat2 t with
      | some i => i
      | none =>
        match searchPat3 t with
        | some i => i
        | none => t
  else t

/-- Model of `extract_video_id` (src/main.py:112): strip whitespace, return the
string unchanged when it has none of `?&=/`, otherwise try the URL
patterns and fall back to the stripped input. -/
def extract_video_id (url_or_id : String) : String :=
  ⟨extractIdCore (trimChars url_or_id.data)⟩

/-! ### Batch normalization (src/main.py, normalize_video_input) -/

/-- One entry of the normalized batch: `(video_id, original_input)`. -/
def normalizeOne (v : String) : String × String :=
  (extract_video_id v, v)

/-- The de-duplication loop over the concatenated entries, carrying the
`seen` set of canonical identifiers. -/
def dedupLoop (seen : List String) : List (String × String) → List (String × String)
  | [] => []
  | (i, o) :: rest =>
    if i ∈ seen then dedupLoop seen rest
    else (i, o) :: dedupLoop (i :: seen) rest

/-- The raw concatenation before de-duplication: the unified `videos`
list first, then `video_ids`, then `video_urls` (absent lists contribute
nothing). -/
def rawEntries (video_ids video_urls videos : Option (List String)) : List (String × String) :=
  (videos.getD []).map normalizeOne ++
    (video_ids.getD []).map normalizeOne ++
    (video_urls.getD []).map normalizeOne

/-- Model of `normalize_video_input` (src/main.py:145), with the source's
parameter order `(video_ids, video_urls, videos)`. -/
def normalize_video_input (video_ids video_urls videos : Option (List String)) : List (String × String) :=
  dedupLoop [] (rawEntries video_ids video_urls videos)

/-! ### Record store (src/database.py)

One row of `video_transcriptions`, restricted to the columns the
workflow reads or writes (title/duration/metadata columns and the
timestamps are never consulted by the claims). Nullable columns are
`Option String`. -/

structure VideoRecord where
  video_url : Option String
  status : String
  transcript : Option String
  audio_file_path : Option String
  error_message : Option String
deriving DecidableEq

/-- The record store: rows keyed by `video_id` (unique by construction,
inserts append at the end). -/
abbrev Store := List (String × VideoRecord)

/-- Model of `get_video_record` (src/database.py:352): `SELECT * WHERE video_id = ?`. -/
def get_video_record (video_id : String) : Store → Option VideoRecord
  | [] => none
  | (k, r) :: rest => if k = video_id then some r else get_video_record video_id rest

/-- The fresh row `create_video_record` inserts: the given status and
NULL transcript, artifact path and error message. -/
def freshRecord (video_url status : String) : VideoRecord :=
  { video_url := some video_url, status := status,
    transcript := none, audio_file_path := none, error_message := none }

/-- Model of `create_video_record` (src/database.py:361): INSERT with
`ON CONFLICT (video_id) DO NOTHING` / `INSERT OR IGNORE` — a no-op when
the key already exists; otherwise the fresh row is appended. -/
def create_video_record (video_id video_url status : String) (s : Store) : Store :=
  match get_video_record video_id s with
  | some _ => s
  | none => s ++ [(video_id, freshRecord video_url status)]

/-- Merge one optional field of `update_video_record`: a column is
rewritten only when the argument was supplied (`is not None`). -/
def updOpt (new old : Option String) : Option String :=
  match new with
  | some v => some v
  | none => old

/-- The column rewrite one `UPDATE video_transcriptions SET ...` applies
to the matched row: only the supplied fields change. -/
def mergeFields (status transcript audio_file_path error_message : Option String)
    (r : VideoRecord) : VideoRecord :=
  { r with
    status := status.getD r.status,
    transcript := updOpt transcript r.transcript,
    audio_file_path := updOpt audio_file_path r.audio_file_path,
    error_message := updOpt error_message r.error_message }

/-- Model of `update_video_record` (src/database.py:397) restricted to the four
fields the pipeline passes; an UPDATE on a missing key changes nothing. -/
def update_video_record (video_id : String)
    (status transcript audio_file_path error_message : Option String)
    (s : Store) : Store :=
  s.map (fun p =>
    if p.1 = video_id then
      (p.1, mergeFields status transcript audio_file_path error_message p.2)
    else p)

/-- Model of `delete_audio_file_path` (src/database.py:485):
`SET audio_file_path = NULL`. -/
def delete_audio_file_path (video_id : String) (s : Store) : Store :=
  s.map (fun p =>
    if p.1 = video_id then (p.1, { p.2 with audio_file_path := none }) else p)

/-! ### The /transcribe pipeline (src/main.py, transcribe_videos) -/

/-- The external collaborators: yt-dlp (identifier → staged file path)
and Deepgram (file path → transcript), as deterministic oracles. -/
structure Oracles where
  download : String → Except String String
  transcribe : String → Except String String

/-- Pipeline-visible state: the record store, the set of existing file
paths, and counters of artifact-acquisition and transcription calls. -/
structure PipelineState where
  store : Store
  files : List String
  downloads : Nat
  transcriptions : Nat
deriving DecidableEq

/-- Python truthiness of a nullable string (`None` and `""` are falsy). -/
def truthyStr : Option String → Bool
  | none => false
  | some s => !(s == "")

/-- Python `x or d` for a nullable string `x`. -/
def pyOr (o : Option String) (d : String) : String :=
  match o with
  | some s => if s == "" then d else s
  | none => d

/-- Model of `download_audio` (src/main.py:182): counts as one acquisition call;
on success the staged file exists afterwards; any failure is re-raised
with the `Failed to download audio:` wrapper. -/
def download_audio (o : Oracles) (video_id : String) (st : PipelineState) :
    PipelineState × Except String String :=
  let st1 := { st with downloads := st.downloads + 1 }
  match o.download video_id with
  | .ok path => ({ st1 with files := path :: st1.files }, .ok path)
  | .error e => (st1, .error ("Failed to download audio: " ++ e))

/-- Model of `transcribe_audio` (src/main.py:220): counts as one transcription
call; failures carry the `Failed to transcribe audio:` wrapper. -/
def transcribe_audio (o : Oracles) (path : String) (st : PipelineState) :
    PipelineState × Except String String :=
  let st1 := { st with transcriptions := st.transcriptions + 1 }
  match o.transcribe path with
  | .ok t => (st1, .ok t)
  | .error e => (st1, .error ("Failed to transcribe audio: " ++ e))

/-- Response cell `TranscriptResponse` (src/main.py:94). -/
structure TranscriptResponse where
  video_id : String
  video_url : Option String
  transcript : String
  status : String
  from_cache : Bool
deriving DecidableEq

/-- Response cell `ErrorResponse` (src/main.py:102). -/
structure ErrorResponse where
  video_id : String
  video_url : Option String
  error : String
  status : String
deriving DecidableEq

/-- Response body `TranscriptionResponse` (src/main.py:109). -/
structure TranscriptionResponse where
  success : List TranscriptResponse
  errors : List ErrorResponse
deriving DecidableEq

/-- Outcome of one loop iteration: a success-list or an error-list cell. -/
inductive ItemResult where
  | ok : TranscriptResponse → ItemResult
  | err : ErrorResponse → ItemResult
deriving DecidableEq

/-- The `except Exception` handler of the loop (src/main.py:363): when
the record fetched at the top of the iteration existed and was not
already failed, mark it failed with the error text; when none was
fetched, insert-or-ignore a `failed` row (a no-op if the iteration
already created a `processing` row) and set only the error message. -/
def handleFailure (video_id original_input : String)
    (db_record : Option VideoRecord) (msg : String) (st : PipelineState) :
    PipelineState × ItemResult :=
  let store' :=
    match db_record with
    | some r =>
      if r.status ≠ "failed" then
        update_video_record video_id (some "failed") none none (some msg) st.store
      else st.store
    | none =>
      update_video_record video_id none none none (some msg)
        (create_video_record video_id original_input "failed" st.store)
  ({ st with store := store' },
   .err { video_id := video_id, video_url := some original_input,
          error := msg, status := "error" })

/-- Steps 2–3 of the pipeline once an artifact path is in hand:
transcribe, record the success, then delete the artifact file and clear
`audio_file_path` when the (truthy) path still exists on disk. -/
def finishWithAudio (o : Oracles) (video_id original_input : String)
    (db_record : Option VideoRecord) (path : String) (st : PipelineState) :
    PipelineState × ItemResult :=
  let (st1, tr) := transcribe_audio o path st
  match tr with
  | .error msg => handleFailure video_id original_input db_record msg st1
  | .ok t =>
    let st2 := { st1 with
      store := update_video_record video_id (some "success") (some t) none none st1.store }
    let st3 :=
      if path ≠ "" ∧ path ∈ st2.files then
        { st2 with files := st2.files.erase path,
                   store := delete_audio_file_path video_id st2.store }
      else st2
    (st3, .ok { video_id := video_id, video_url := some original_input,
                transcript := t, status := "success", from_cache := false })

/-- Originate new work: create (or keep) a `processing` row, acquire the
artifact, stage its path in the record, then transcribe. -/
def acquireFresh (o : Oracles) (video_id original_input : String)
    (db_record : Option VideoRecord) (st : PipelineState) :
    PipelineState × ItemResult :=
  let st1 := { st with store := create_video_record video_id original_input "processing" st.store }
  let (st2, dl) := download_audio o video_id st1
  match dl with
  | .error msg => handleFailure video_id original_input db_record msg st2
  | .ok path =>
    let st3 := { st2 with
      store := update_video_record video_id none none (some path) none st2.store }
    finishWithAudio o video_id original_input db_record path st3

/-- One iteration of the `for video_id, original_input in video_list`
loop of `transcribe_videos` (src/main.py:290): the cached-success and
cached-failure short circuits, artifact reuse when the stored path is
truthy and the file exists, and origination otherwise.  The error cell
of the cached-failure branch carries the stored message
(`db_record.get('error_message', 'Previous attempt failed')`). -/
def processItem (o : Oracles) (st : PipelineState) (item : String × String) :
    PipelineState × ItemResult :=
  let (video_id, original_input) := item
  match get_video_record video_id st.store with
  | some r =>
    if r.status = "success" ∧ truthyStr r.transcript then
      (st, .ok { video_id := video_id,
                 video_url := some (pyOr r.video_url original_input),
                 transcript := r.transcript.getD "",
                 status := "success", from_cache := true })
    else if r.status = "failed" then
      (st, .err { video_id := video_id,
                  video_url := some (pyOr r.video_url original_input),
                  error := r.error_message.getD ("Previous attempt failed"),
                  status := "error" })
    else if truthyStr r.audio_file_path ∧ (r.audio_file_path.getD "") ∈ st.files then
      finishWithAudio o video_id original_input (some r) (r.audio_file_path.getD "") st
    else
      acquireFresh o video_id original_input (some r) st
  | none => acquireFresh o video_id original_input none st

/-- The whole loop: items processed left to right, each appending to the
success or error list; one item's failure never stops the loop. -/
def runItems (o : Oracles) :
    PipelineState → List (String × String) →
    PipelineState × List TranscriptResponse × List ErrorResponse
  | st, [] => (st, [], [])
  | st, item :: rest =>
    let (st1, res) := processItem o st item
    let (st2, ss, es) := runItems o st1 rest
    match res with
    | .ok c => (st2, c :: ss, es)
    | .err c => (st2, ss, c :: es)

/-- Request model `VideoRequest` (src/main.py:43). -/
structure VideoRequest where
  videos : Option (List String)
  video_ids : Option (List String)
  video_urls : Option (List String)
  deepgram_api_key : Option String

/-- Python truthiness of a nullable list. -/
def listTruthy : Option (List String) → Bool
  | none => false
  | some l => !l.isEmpty

/-- An `HTTPException` raised by the endpoint. -/
structure HttpError where
  status_code : Nat
  detail : String
deriving DecidableEq

/-- The key resolution `request.deepgram_api_key or os.getenv(...)`:
an absent or empty request value falls back to the environment. -/
def resolved_api_key (request_key env_api_key : Option String) : Option String :=
  match request_key with
  | some k => if k == "" then env_api_key else some k
  | none => env_api_key

/-- Model of `transcribe_videos` (src/main.py:246): validate that some list was
supplied, resolve the Deepgram key (request value `or` environment),
normalize the batch, then run the loop.  `env_api_key` stands for
`os.getenv("DEEPGRAM_API_KEY")`. -/
def transcribe_videos (o : Oracles) (env_api_key : Option String)
    (request : VideoRequest) (st : PipelineState) :
    Except HttpError (TranscriptionResponse × PipelineState) :=
  if ¬ (listTruthy request.videos || listTruthy request.video_ids || listTruthy request.video_urls) then
    .error { status_code := 400,
             detail := "At least one of 'videos', 'video_ids', or 'video_urls' must be provided" }
  else if ¬ truthyStr (resolved_api_key request.deepgram_api_key env_api_key) then
    .error { status_code := 400,
             detail := "Deepgram API key is required. Provide it in the request or set DEEPGRAM_API_KEY environment variable." }
  else
    match runItems o st (normalize_video_input request.video_ids request.video_urls request.videos) with
    | (st', ss, es) => .ok ({ success := ss, errors := es }, st')

/-! ### Property-side definitions -/

/-- The spec's data-model invariant for one record: a successful record
carries a non-empty transcript and a cleared artifact path. -/
def recordOk (r : VideoRecord) : Prop :=
  r.status = "success" → (truthyStr r.transcript = true ∧ r.audio_file_path = none)

/-- The invariant over every record the store interface can return. -/
def storeInv (s : Store) : Prop :=
  ∀ k r, get_video_record k s = some r → recordOk r

/-- The transcription provider never returns an empty transcript. -/
def transcriptsNonEmpty (o : Oracles) : Prop :=
  ∀ p t, o.transcribe p = Except.ok t → t ≠ ""

/-- Artifact acquisition never reports an empty path. -/
def pathsNonEmpty (o : Oracles) : Prop :=
  ∀ i p, o.download i = Except.ok p → p ≠ ""

/-! ### Concrete fixtures used by counterexamples and witnesses -/

/-- Fixture: acquisition fails for `bbbbbbbbbbb`, transcription says `hello`. -/
def oracleFailB : Oracles :=
  { download := fun i => if i = "bbbbbbbbbbb" then .error "boom" else .ok (i ++ ".mp3"),
    transcribe := fun _ => .ok "hello" }

/-- Fixture: acquisition succeeds, transcription returns the empty transcript. -/
def oracleEmpty : Oracles :=
  { download := fun i => .ok (i ++ ".mp3"),
    transcribe := fun _ => .ok "" }

/-- Fixture: acquisition succeeds, transcription says `hello`. -/
def oracleHello : Oracles :=
  { download := fun i => .ok (i ++ ".mp3"),
    transcribe := fun _ => .ok "hello" }

/-- Fixture: the empty pipeline state. -/
def emptyState : PipelineState :=
  { store := [], files := [], downloads := 0, transcriptions := 0 }

/-- Fixture: a request carrying one unified list and an API key. -/
def reqOf (l : List String) : VideoRequest :=
  { videos := some l, video_ids := none, video_urls := none, deepgram_api_key := some "k" }

/-- Fixture: acquisition succeeds, transcription always fails. -/
def oracleTFail : Oracles :=
  { download := fun i => .ok (i ++ ".mp3"),
    transcribe := fun _ => .error "tboom" }

/-- Fixture: a store holding one cached success record. -/
def cachedState : PipelineState :=
  { store := [("aaaaaaaaaaa",
      { video_url := some "aaaaaaaaaaa", status := "success",
        transcript := some "hello", audio_file_path := none,
        error_message := none })],
    files := [], downloads := 0, transcriptions := 0 }

/-- Fixture: a store holding one cached failure record. -/
def failedState : PipelineState :=
  { store := [("aaaaaaaaaaa",
      { video_url := some "aaaaaaaaaaa", status := "failed",
        transcript := none, audio_file_path := none,
        error_message := some "boom" })],
    files := [], downloads := 0, transcriptions := 0 }

/-- Fixture: a success record whose transcript is empty (stale cache). -/
def staleState : PipelineState :=
  { store := [("aaaaaaaaaaa",
      { video_url := some "aaaaaaaaaaa", status := "success",
        transcript := some "", audio_file_path := none,
        error_message := none })],
    files := [], downloads := 0, transcriptions := 0 }

/-! ### Lemmas: stripping and character classes -/

lemma dropWhile_eq_self_of_all {p : Char → Bool} {l : List Char}
    (h : ∀ c ∈ l, p c = false) : l.dropWhile p = l := by
  cases l with
  | nil => rfl
  | cons a as => simp [List.dropWhile_cons, h a (List.mem_cons_self a as)]

lemma trimChars_eq_self {l : List Char}
    (h : ∀ c ∈ l, c.isWhitespace = false) : trimChars l = l := by
  unfold trimChars
  rw [dropWhile_eq_self_of_all h,
    dropWhile_eq_self_of_all (fun c hc => h c (List.mem_reverse.mp hc)),
    List.reverse_reverse]

lemma mem_of_mem_trimChars {l : List Char} {c : Char}
    (h : c ∈ trimChars l) : c ∈ l := by
  unfold trimChars at h
  have h1 := List.mem_reverse.mp h
  have h2 := (List.dropWhile_sublist _).subset h1
  exact (List.dropWhile_sublist _).subset (List.mem_reverse.mp h2)

lemma isIdChar_not_ws {c : Char} (h : isIdChar c = true) :
    c.isWhitespace = false := by
  by_contra hw
  rw [Bool.not_eq_false] at hw
  have hcases := by simpa [Char.isWhitespace] using hw
  rcases hcases with ((h1 | h1) | h1) | h1 <;> subst h1 <;> exact absurd h (by decide)

/-! ### Lemmas: the already-canonical path of extract_video_id -/

lemma extractIdCore_no_special {t : List Char}
    (h : t.any isSpecialChar = false) : extractIdCore t = t := by
  simp [extractIdCore, h]

/-! ### Lemmas: the URL patterns of extract_video_id -/

lemma isPrefixOf_cons_head_false {a c : Char} {as l : List Char}
    (h : (a == c) = false) : (a :: as).isPrefixOf (c :: l) = false := by
  simp [List.isPrefixOf, h]

lemma isPrefixOf_append_self (a b : List Char) : a.isPrefixOf (a ++ b) = true := by
  rw [List.isPrefixOf_iff_prefix]
  exact List.prefix_append a b

lemma isPrefixOf_append_false (p : List Char) {l : List Char} (tail : List Char)
    (h : (p.take l.length).isPrefixOf l = false) :
    p.isPrefixOf (l ++ tail) = false := by
  induction p generalizing l with
  | nil => simp [List.isPrefixOf] at h
  | cons a as ih =>
    cases l with
    | nil => simp [List.isPrefixOf] at h
    | cons b bs =>
      by_cases hab : (a == b) = true
      · have hb : a = b := by simpa using hab
        subst hb
        simp only [List.length_cons, List.take_succ_cons, List.cons_append,
          List.isPrefixOf, beq_self_eq_true, Bool.true_and] at h ⊢
        exact ih (l := bs) h
      · rw [Bool.not_eq_true] at hab
        simp [List.isPrefixOf, hab]

lemma takeId11_exact {id : List Char} (h1 : id.length = 11)
    (h2 : id.all isIdChar = true) : takeId11 id = some id := by
  unfold takeId11
  rw [List.take_of_length_le (le_of_eq h1)]
  simp [h1, h2]

lemma tryAltsAt_pat1_none {c : Char} (l : List Char)
    (hy : ('y' == c) = false) (hm : ('m' == c) = false) :
    tryAltsAt pat1Alts (c :: l) = none := by
  have a1 : ("youtube.com/watch?v=").data.isPrefixOf (c :: l) = false := by
    rw [show ("youtube.com/watch?v=").data = 'y' :: ("outube.com/watch?v=").data from rfl]
    exact isPrefixOf_cons_head_false hy
  have a2 : ("youtu.be/").data.isPrefixOf (c :: l) = false := by
    rw [show ("youtu.be/").data = 'y' :: ("outu.be/").data from rfl]
    exact isPrefixOf_cons_head_false hy
  have a3 : ("youtube.com/embed/").data.isPrefixOf (c :: l) = false := by
    rw [show ("youtube.com/embed/").data = 'y' :: ("outube.com/embed/").data from rfl]
    exact isPrefixOf_cons_head_false hy
  have a4 : ("youtube.com/v/").data.isPrefixOf (c :: l) = false := by
    rw [show ("youtube.com/v/").data = 'y' :: ("outube.com/v/").data from rfl]
    exact isPrefixOf_cons_head_false hy
  have a5 : ("m.youtube.com/watch?v=").data.isPrefixOf (c :: l) = false := by
    rw [show ("m.youtube.com/watch?v=").data = 'm' :: (".youtube.com/watch?v=").data from rfl]
    exact isPrefixOf_cons_head_false hm
  simp [tryAltsAt, pat1Alts, a1, a2, a3, a4, a5]

lemma searchPat1_cons_skip {c : Char} (l : List Char)
    (hy : ('y' == c) = false) (hm : ('m' == c) = false) :
    searchPat1 (c :: l) = searchPat1 l := by
  rw [searchPat1, tryAltsAt_pat1_none l hy hm]

lemma searchPat1_append_skip (pre : List Char)
    (h : ∀ c ∈ pre, ('y' == c) = false ∧ ('m' == c) = false) (l : List Char) :
    searchPat1 (pre ++ l) = searchPat1 l := by
  induction pre with
  | nil => rfl
  | cons c cs ih =>
    rw [List.cons_append,
      searchPat1_cons_skip (cs ++ l) (h c (List.mem_cons_self c cs)).1
        (h c (List.mem_cons_self c cs)).2]
    exact ih (fun d hd => h d (List.mem_cons_of_mem c hd))

lemma searchPat1_of_tryAltsAt {l i : List Char}
    (h : tryAltsAt pat1Alts l = some i) : searchPat1 l = some i := by
  cases l with
  | nil => rw [show tryAltsAt pat1Alts ([] : List Char) = none from rfl] at h; exact absurd h (by simp)
  | cons c rest => rw [searchPat1, h]

lemma tryAltsAt_watch {id : List Char} (h1 : id.length = 11)
    (h2 : id.all isIdChar = true) :
    tryAltsAt pat1Alts (("youtube.com/watch?v=").data ++ id) = some id := by
  simp [tryAltsAt, pat1Alts, isPrefixOf_append_self, takeId11_exact h1 h2]

lemma tryAltsAt_ybe {id : List Char} (h1 : id.length = 11)
    (h2 : id.all isIdChar = true) :
    tryAltsAt pat1Alts (("youtu.be/").data ++ id) = some id := by
  have a1 : ("youtube.com/watch?v=").data.isPrefixOf (("youtu.be/").data ++ id) = false :=
    isPrefixOf_append_false _ _ (by decide)
  simp [tryAltsAt, pat1Alts, a1, isPrefixOf_append_self, takeId11_exact h1 h2]

lemma tryAltsAt_embed {id : List Char} (h1 : id.length = 11)
    (h2 : id.all isIdChar = true) :
    tryAltsAt pat1Alts (("youtube.com/embed/").data ++ id) = some id := by
  have a1 : ("youtube.com/watch?v=").data.isPrefixOf (("youtube.com/embed/").data ++ id) = false :=
    isPrefixOf_append_false _ _ (by decide)
  have a2 : ("youtu.be/").data.isPrefixOf (("youtube.com/embed/").data ++ id) = false :=
    isPrefixOf_append_false _ _ (by decide)
  simp [tryAltsAt, pat1Alts, a1, a2, isPrefixOf_append_self, takeId11_exact h1 h2]

lemma tryAltsAt_vpath {id : List Char} (h1 : id.length = 11)
    (h2 : id.all isIdChar = true) :
    tryAltsAt pat1Alts (("youtube.com/v/").data ++ id) = some id := by
  have a1 : ("youtube.com/watch?v=").data.isPrefixOf (("youtube.com/v/").data ++ id) = false :=
    isPrefixOf_append_false _ _ (by decide)
  have a2 : ("youtu.be/").data.isPrefixOf (("youtube.com/v/").data ++ id) = false :=
    isPrefixOf_append_false _ _ (by decide)
  have a3 : ("youtube.com/embed/").data.isPrefixOf (("youtube.com/v/").data ++ id) = false :=
    isPrefixOf_append_false _ _ (by decide)
  simp [tryAltsAt, pat1Alts, a1, a2, a3, isPrefixOf_append_self, takeId11_exact h1 h2]

lemma tryAltsAt_mobile {id : List Char} (h1 : id.length = 11)
    (h2 : id.all isIdChar = true) :
    tryAltsAt pat1Alts (("m.youtube.com/watch?v=").data ++ id) = some id := by
  have a1 : ("youtube.com/watch?v=").data.isPrefixOf (("m.youtube.com/watch?v=").data ++ id) = false :=
    isPrefixOf_append_false _ _ (by decide)
  have a2 : ("youtu.be/").data.isPrefixOf (("m.youtube.com/watch?v=").data ++ id) = false :=
    isPrefixOf_append_false _ _ (by decide)
  have a3 : ("youtube.com/embed/").data.isPrefixOf (("m.youtube.com/watch?v=").data ++ id) = false :=
    isPrefixOf_append_false _ _ (by decide)
  have a4 : ("youtube.com/v/").data.isPrefixOf (("m.youtube.com/watch?v=").data ++ id) = false :=
    isPrefixOf_append_false _ _ (by decide)
  simp [tryAltsAt, pat1Alts, a1, a2, a3, a4, isPrefixOf_append_self, takeId11_exact h1 h2]

lemma searchPat1_watch_url {id : List Char} (h1 : id.length = 11)
    (h2 : id.all isIdChar = true) :
    searchPat1 (("https://www.youtube.com/watch?v=").data ++ id) = some id := by
  rw [show ("https://www.youtube.com/watch?v=").data
      = ("https://www.").data ++ ("youtube.com/watch?v=").data from by decide,
    List.append_assoc, searchPat1_append_skip _ (by decide) _]
  exact searchPat1_of_tryAltsAt (tryAltsAt_watch h1 h2)

lemma searchPat1_ybe_url {id : List Char} (h1 : id.length = 11)
    (h2 : id.all isIdChar = true) :
    searchPat1 (("https://youtu.be/").data ++ id) = some id := by
  rw [show ("https://youtu.be/").data
      = ("https://").data ++ ("youtu.be/").data from by decide,
    List.append_assoc, searchPat1_append_skip _ (by decide) _]
  exact searchPat1_of_tryAltsAt (tryAltsAt_ybe h1 h2)

lemma searchPat1_embed_url {id : List Char} (h1 : id.length = 11)
    (h2 : id.all isIdChar = true) :
    searchPat1 (("https://www.youtube.com/embed/").data ++ id) = some id := by
  rw [show ("https://www.youtube.com/embed/").data
      = ("https://www.").data ++ ("youtube.com/embed/").data from by decide,
    List.append_assoc, searchPat1_append_skip _ (by decide) _]
  exact searchPat1_of_tryAltsAt (tryAltsAt_embed h1 h2)

lemma searchPat1_vpath_url {id : List Char} (h1 : id.length = 11)
    (h2 : id.all isIdChar = true) :
    searchPat1 (("https://www.youtube.com/v/").data ++ id) = some id := by
  rw [show ("https://www.youtube.com/v/").data
      = ("https://www.").data ++ ("youtube.com/v/").data from by decide,
    List.append_assoc, searchPat1_append_skip _ (by decide) _]
  exact searchPat1_of_tryAltsAt (tryAltsAt_vpath h1 h2)

lemma searchPat1_mobile_url {id : List Char} (h1 : id.length = 11)
    (h2 : id.all isIdChar = true) :
    searchPat1 (("https://m.youtube.com/watch?v=").data ++ id) = some id := by
  rw [show ("https://m.youtube.com/watch?v=").data
      = ("https://").data ++ ("m.youtube.com/watch?v=").data from by decide,
    List.append_assoc, searchPat1_append_skip _ (by decide) _]
  exact searchPat1_of_tryAltsAt (tryAltsAt_mobile h1 h2)

lemma extract_eq_of_pat1 (pre : String) {id : List Char}
    (h2 : id.all isIdChar = true)
    (hsp : pre.data.any isSpecialChar = true)
    (hnw : ∀ c ∈ pre.data, c.isWhitespace = false)
    (hs : searchPat1 (pre.data ++ id) = some id) :
    extract_video_id (pre ++ ⟨id⟩) = ⟨id⟩ := by
  unfold extract_video_id
  rw [String.data_append pre ⟨id⟩]
  have hnw2 : ∀ c ∈ pre.data ++ id, c.isWhitespace = false := by
    intro c hc
    rcases List.mem_append.mp hc with hmem | hmem
    · exact hnw c hmem
    · exact isIdChar_not_ws (List.all_eq_true.mp h2 c hmem)
  rw [trimChars_eq_self hnw2]
  have hany : (pre.data ++ id).any isSpecialChar = true := by
    rw [List.any_append, hsp, Bool.true_or]
  simp only [extractIdCore, hany, if_true, hs]

/-- C8: for every 11-character identifier over `[A-Za-z0-9_-]`, each
recognized YouTube URL shape (watch, short youtu.be, embed, `/v/`,
mobile watch) embedding the identifier normalizes, via
`extract_video_id`, to that same identifier. -/
theorem extract_video_id_url_shapes (id : List Char)
    (h1 : id.length = 11) (h2 : id.all isIdChar = true) :
    extract_video_id ("https://www.youtube.com/watch?v=" ++ ⟨id⟩) = ⟨id⟩ ∧
    extract_video_id ("https://youtu.be/" ++ ⟨id⟩) = ⟨id⟩ ∧
    extract_video_id ("https://www.youtube.com/embed/" ++ ⟨id⟩) = ⟨id⟩ ∧
    extract_video_id ("https://www.youtube.com/v/" ++ ⟨id⟩) = ⟨id⟩ ∧
    extract_video_id ("https://m.youtube.com/watch?v=" ++ ⟨id⟩) = ⟨id⟩ :=
  ⟨extract_eq_of_pat1 _ h2 (by decide) (by decide) (searchPat1_watch_url h1 h2),
   extract_eq_of_pat1 _ h2 (by decide) (by decide) (searchPat1_ybe_url h1 h2),
   extract_eq_of_pat1 _ h2 (by decide) (by decide) (searchPat1_embed_url h1 h2),
   extract_eq_of_pat1 _ h2 (by decide) (by decide) (searchPat1_vpath_url h1 h2),
   extract_eq_of_pat1 _ h2 (by decide) (by decide) (searchPat1_mobile_url h1 h2)⟩

/-- Witness for C8 at the identifier `dQw4w9WgXcQ`. -/
theorem extract_video_id_url_shapes_witness :
    extract_video_id ("https://www.youtube.com/watch?v=" ++ ⟨("dQw4w9WgXcQ").data⟩)
      = ⟨("dQw4w9WgXcQ").data⟩ ∧
    extract_video_id ("https://youtu.be/" ++ ⟨("dQw4w9WgXcQ").data⟩)
      = ⟨("dQw4w9WgXcQ").data⟩ ∧
    extract_video_id ("https://www.youtube.com/embed/" ++ ⟨("dQw4w9WgXcQ").data⟩)
      = ⟨("dQw4w9WgXcQ").data⟩ ∧
    extract_video_id ("https://www.youtube.com/v/" ++ ⟨("dQw4w9WgXcQ").data⟩)
      = ⟨("dQw4w9WgXcQ").data⟩ ∧
    extract_video_id ("https://m.youtube.com/watch?v=" ++ ⟨("dQw4w9WgXcQ").data⟩)
      = ⟨("dQw4w9WgXcQ").data⟩ :=
  extract_video_id_url_shapes (("dQw4w9WgXcQ").data) (by decide) (by decide)

/-- C9 as stated is false: the input `" a"` contains none of `?&=/`,
yet `extract_video_id` does not return it unchanged (it strips the
surrounding whitespace). -/
theorem extract_video_id_unchanged_counterexample :
    (∀ c ∈ (" a").data, isSpecialChar c = false) ∧
    extract_video_id (" a") ≠ (" a") := by decide

/-- C9 (amended): an input containing none of `?&=/` is returned with
only its surrounding whitespace stripped; in particular an input without
leading or trailing whitespace is returned unchanged. -/
theorem extract_video_id_no_special (s : String)
    (h : ∀ c ∈ s.data, isSpecialChar c = false) :
    extract_video_id s = ⟨trimChars s.data⟩ ∧
    ((∀ c ∈ s.data, c.isWhitespace = false) → extract_video_id s = s) := by
  have hcore : extractIdCore (trimChars s.data) = trimChars s.data := by
    apply extractIdCore_no_special
    rw [List.any_eq_false]
    intro c hc
    simp [h c (mem_of_mem_trimChars hc)]
  constructor
  · unfold extract_video_id
    rw [hcore]
  · intro h2
    unfold extract_video_id
    rw [trimChars_eq_self h2] at hcore ⊢
    rw [hcore]

/-- Witness for the amended C9 at the input `" ab"`. -/
theorem extract_video_id_no_special_witness :
    extract_video_id (" ab") = ⟨trimChars ((" ab").data)⟩ :=
  (extract_video_id_no_special (" ab") (by decide)).1

/-! ### Lemmas: batch de-duplication -/

lemma dedupLoop_key_not_seen {seen : List String} {l : List (String × String)} :
    ∀ p ∈ dedupLoop seen l, p.1 ∉ seen := by
  induction l generalizing seen with
  | nil => intro p hp; cases hp
  | cons q rest ih =>
    rcases q with ⟨i, o⟩
    intro p hp
    by_cases hi : i ∈ seen
    · simp only [dedupLoop, if_pos hi] at hp
      exact ih p hp
    · simp only [dedupLoop, if_neg hi] at hp
      cases hp with
      | head => exact hi
      | tail _ hp =>
        intro hmem
        exact ih p hp (List.mem_cons_of_mem i hmem)

lemma dedupLoop_keys_nodup (seen : List String) (l : List (String × String)) :
    ((dedupLoop seen l).map Prod.fst).Nodup := by
  induction l generalizing seen with
  | nil => simp [dedupLoop]
  | cons q rest ih =>
    rcases q with ⟨i, o⟩
    by_cases hi : i ∈ seen
    · simpa [dedupLoop, hi] using ih seen
    · simp only [dedupLoop, if_neg hi, List.map_cons, List.nodup_cons]
      refine ⟨fun hmem => ?_, ih (i :: seen)⟩
      rcases List.mem_map.mp hmem with ⟨p, hp, hpi⟩
      exact dedupLoop_key_not_seen p hp (hpi ▸ List.mem_cons_self i seen)

lemma dedupLoop_sublist (seen : List String) (l : List (String × String)) :
    (dedupLoop seen l).Sublist l := by
  induction l generalizing seen with
  | nil => simp [dedupLoop]
  | cons q rest ih =>
    rcases q with ⟨i, o⟩
    by_cases hi : i ∈ seen
    · simp only [dedupLoop, if_pos hi]
      exact (ih seen).cons _
    · simp only [dedupLoop, if_neg hi]
      exact (ih (i :: seen)).cons₂ _

lemma dedupLoop_lookup {seen : List String} {l : List (String × String)} :
    ∀ p ∈ dedupLoop seen l, List.lookup p.1 l = some p.2 := by
  induction l generalizing seen with
  | nil => intro p hp; cases hp
  | cons q rest ih =>
    rcases q with ⟨i, o⟩
    intro p hp
    by_cases hi : i ∈ seen
    · simp only [dedupLoop, if_pos hi] at hp
      have hne : (p.1 == i) = false :=
        beq_eq_false_iff_ne.mpr (fun he => dedupLoop_key_not_seen p hp (he ▸ hi))
      simp [List.lookup, hne]
      exact ih p hp
    · simp only [dedupLoop, if_neg hi] at hp
      cases hp with
      | head => simp [List.lookup]
      | tail _ hp =>
        have hni : p.1 ∉ i :: seen := dedupLoop_key_not_seen p hp
        have hne : (p.1 == i) = false :=
          beq_eq_false_iff_ne.mpr (fun he => hni (he ▸ List.mem_cons_self i seen))
        simp [List.lookup, hne]
        exact ih p hp

lemma dedupLoop_complete {seen : List String} {l : List (String × String)} :
    ∀ p ∈ l, p.1 ∈ (dedupLoop seen l).map Prod.fst ∨ p.1 ∈ seen := by
  induction l generalizing seen with
  | nil => intro p hp; cases hp
  | cons q rest ih =>
    rcases q with ⟨i, o⟩
    intro p hp
    rcases List.mem_cons.mp hp with hp | hp
    · by_cases hi : i ∈ seen
      · right
        rw [hp]
        exact hi
      · left
        simp only [dedupLoop, if_neg hi, List.map_cons, hp]
        exact List.mem_cons_self i _
    · by_cases hi : i ∈ seen
      · simp only [dedupLoop, if_pos hi]
        exact ih p hp
      · simp only [dedupLoop, if_neg hi, List.map_cons]
        rcases @ih (i :: seen) p hp with h | h
        · exact Or.inl (List.mem_cons_of_mem i h)
        · rcases List.mem_cons.mp h with h | h
          · exact Or.inl (h ▸ List.mem_cons_self i _)
          · exact Or.inr h

lemma getD_nil_of_not_truthy {x : Option (List String)}
    (h : listTruthy x = false) : x.getD [] = [] := by
  cases x with
  | none => rfl
  | some l =>
    simp only [listTruthy, Bool.not_eq_false'] at h
    simpa using List.isEmpty_iff.mp h

/-- C6's example is false on the code: `https://youtu.be/abc` embeds only
a 3-character tail, so no pattern matches and the whole URL is kept as
the canonical identifier — the batch resolves to two entries, not one. -/
theorem normalize_video_input_counterexample :
    normalize_video_input none none (some ["abc", "https://youtu.be/abc"]) =
      [("abc", "abc"), ("https://youtu.be/abc", "https://youtu.be/abc")] ∧
    (normalize_video_input none none (some ["abc", "https://youtu.be/abc"])).map Prod.fst
      ≠ ["abc"] := by decide

/-- C6 (amended): `normalize_video_input` de-duplicates by canonical
identifier, preserving first-occurrence order (the result is a sublist
of the normalized concatenation) and keeping the first-seen original
input of each identifier; lists that are absent or empty contribute no
entries; and the example holds once the identifier has the 11-character
shape the patterns require: `["abcdefghijk", "https://youtu.be/abcdefghijk"]`
yields exactly one entry. -/
theorem normalize_video_input_dedup :
    (∀ video_ids video_urls videos,
      ((normalize_video_input video_ids video_urls videos).map Prod.fst).Nodup ∧
      (normalize_video_input video_ids video_urls videos).Sublist
        (rawEntries video_ids video_urls videos) ∧
      (∀ p ∈ normalize_video_input video_ids video_urls videos,
        List.lookup p.1 (rawEntries video_ids video_urls videos) = some p.2) ∧
      (∀ p ∈ rawEntries video_ids video_urls videos,
        p.1 ∈ (normalize_video_input video_ids video_urls videos).map Prod.fst)) ∧
    (∀ video_ids video_urls videos,
      listTruthy video_ids = false → listTruthy video_urls = false →
      listTruthy videos = false →
      normalize_video_input video_ids video_urls videos = []) ∧
    normalize_video_input none none (some ["abcdefghijk", "https://youtu.be/abcdefghijk"]) =
      [("abcdefghijk", "abcdefghijk")] := by
  refine ⟨fun a b c => ⟨dedupLoop_keys_nodup [] _, dedupLoop_sublist [] _,
      fun p hp => dedupLoop_lookup p hp, fun p hp => ?_⟩, fun a b c ha hb hc => ?_, by decide⟩
  · rcases @dedupLoop_complete [] _ p hp with h | h
    · exact h
    · cases h
  · unfold normalize_video_input rawEntries
    rw [getD_nil_of_not_truthy ha, getD_nil_of_not_truthy hb, getD_nil_of_not_truthy hc]
    rfl

/-- Witness for the amended C6: three absent lists resolve to no entries. -/
theorem normalize_video_input_dedup_witness :
    normalize_video_input none none none = [] :=
  normalize_video_input_dedup.2.1 none none none rfl rfl rfl

/-! ### Lemmas: record store operations -/

lemma get_mapKeyed (f : VideoRecord → VideoRecord) (k id : String) (s : Store) :
    get_video_record k (s.map (fun p => if p.1 = id then (p.1, f p.2) else p)) =
      (if k = id then (get_video_record k s).map f else get_video_record k s) := by
  induction s with
  | nil => simp [get_video_record]
  | cons p rest ih =>
    rcases p with ⟨pk, pr⟩
    have hent : (if (pk, pr).1 = id then ((pk, pr).1, f (pk, pr).2) else (pk, pr))
        = (pk, if pk = id then f pr else pr) := by
      by_cases h : pk = id <;> simp [h]
    rw [List.map_cons, hent]
    by_cases hk : pk = k
    · subst hk
      by_cases hpk : pk = id
      · subst hpk
        simp [get_video_record]
      · simp [get_video_record, hpk]
    · simp [get_video_record, hk, ih]

lemma get_update (k id : String) (a b c d : Option String) (s : Store) :
    get_video_record k (update_video_record id a b c d s) =
      (if k = id then (get_video_record k s).map (mergeFields a b c d)
       else get_video_record k s) :=
  get_mapKeyed (mergeFields a b c d) k id s

lemma get_delete (k id : String) (s : Store) :
    get_video_record k (delete_audio_file_path id s) =
      (if k = id then (get_video_record k s).map (fun r => { r with audio_file_path := none })
       else get_video_record k s) :=
  get_mapKeyed (fun r => { r with audio_file_path := none }) k id s

lemma create_noop {id : String} {s : Store} {r : VideoRecord} (u stt : String)
    (h : get_video_record id s = some r) :
    create_video_record id u stt s = s := by
  simp [create_video_record, h]

lemma get_append_singleton {k id : String} (h : k ≠ id) (r : VideoRecord) (s : Store) :
    get_video_record k (s ++ [(id, r)]) = get_video_record k s := by
  induction s with
  | nil =>
    simp only [List.nil_append, get_video_record]
    rw [if_neg (fun hh => h hh.symm)]
  | cons p rest ih =>
    rcases p with ⟨pk, pr⟩
    by_cases hpk : pk = k
    · simp [get_video_record, hpk]
    · simp [get_video_record, hpk, ih]

lemma get_create_ne {k id : String} (h : k ≠ id) (u stt : String) (s : Store) :
    get_video_record k (create_video_record id u stt s) = get_video_record k s := by
  unfold create_video_record
  cases hid : get_video_record id s with
  | some r => rfl
  | none => exact get_append_singleton h _ s

lemma get_append_last {id : String} (r : VideoRecord) {s : Store}
    (h : get_video_record id s = none) :
    get_video_record id (s ++ [(id, r)]) = some r := by
  induction s with
  | nil => simp [get_video_record]
  | cons p rest ih =>
    rcases p with ⟨pk, pr⟩
    have hpk : ¬ pk = id := by
      intro he
      simp [get_video_record, he] at h
    have h' : get_video_record id rest = none := by
      simpa [get_video_record, hpk] using h
    simp [get_video_record, hpk, ih h']

lemma get_create_self {id u stt : String} {s : Store}
    (h : get_video_record id s = none) :
    get_video_record id (create_video_record id u stt s) = some (freshRecord u stt) := by
  simp only [create_video_record, h]
  exact get_append_last _ h

/-! ### Lemmas: the cached short-circuits of processItem -/

lemma processItem_cached_success {o : Oracles} {st : PipelineState}
    {id orig : String} {r : VideoRecord}
    (hg : get_video_record id st.store = some r)
    (hs : r.status = "success") (ht : truthyStr r.transcript = true) :
    processItem o st (id, orig) =
      (st, .ok { video_id := id, video_url := some (pyOr r.video_url orig),
                 transcript := r.transcript.getD "", status := "success",
                 from_cache := true }) := by
  simp [processItem, hg, hs, ht]

lemma processItem_cached_failed {o : Oracles} {st : PipelineState}
    {id orig : String} {r : VideoRecord}
    (hg : get_video_record id st.store = some r)
    (hf : r.status = "failed") :
    processItem o st (id, orig) =
      (st, .err { video_id := id, video_url := some (pyOr r.video_url orig),
                  error := r.error_message.getD ("Previous attempt failed"),
                  status := "error" }) := by
  have hns : ¬ (r.status = "success" ∧ truthyStr r.transcript = true) := by
    rintro ⟨h1, _⟩
    rw [hf] at h1
    exact absurd h1 (by decide)
  simp [processItem, hg, hns, hf]

/-! ### Lemmas: records of other identifiers are never touched -/

lemma handleFailure_store_ne {k id : String} (orig : String)
    (db : Option VideoRecord) (msg : String) (st : PipelineState)
    (h : k ≠ id) :
    get_video_record k (handleFailure id orig db msg st).1.store
      = get_video_record k st.store := by
  unfold handleFailure
  cases db with
  | some r =>
    by_cases hs : r.status ≠ "failed" <;> simp [hs, get_update, h]
  | none => simp [get_update, h, get_create_ne h]

lemma finishWithAudio_store_ne {k id : String} (o : Oracles)
    (orig : String) (db : Option VideoRecord) (path : String)
    (st : PipelineState) (h : k ≠ id) :
    get_video_record k (finishWithAudio o id orig db path st).1.store
      = get_video_record k st.store := by
  unfold finishWithAudio
  cases htr : o.transcribe path with
  | error e =>
    simp only [transcribe_audio, htr]
    exact handleFailure_store_ne orig db _ _ h
  | ok t =>
    simp only [transcribe_audio, htr]
    split <;> simp [get_delete, get_update, h]

lemma acquireFresh_store_ne {k id : String} (o : Oracles)
    (orig : String) (db : Option VideoRecord) (st : PipelineState)
    (h : k ≠ id) :
    get_video_record k (acquireFresh o id orig db st).1.store
      = get_video_record k st.store := by
  unfold acquireFresh
  cases hdl : o.download id with
  | error e =>
    simp only [download_audio, hdl]
    rw [handleFailure_store_ne orig db _ _ h]
    simp [get_create_ne h]
  | ok path =>
    simp only [download_audio, hdl]
    rw [finishWithAudio_store_ne o orig db path _ h]
    simp [get_update, h, get_create_ne h]

lemma processItem_store_ne {k : String} {o : Oracles} {st : PipelineState}
    {it : String × String} (h : k ≠ it.1) :
    get_video_record k (processItem o st it).1.store
      = get_video_record k st.store := by
  rcases it with ⟨id, orig⟩
  replace h : k ≠ id := h
  unfold processItem
  cases hg : get_video_record id st.store with
  | none =>
    simp only [hg]
    exact acquireFresh_store_ne o orig none st h
  | some r =>
    simp only [hg]
    by_cases h1 : r.status = "success" ∧ truthyStr r.transcript = true
    · rw [if_pos h1]
    · by_cases h2 : r.status = "failed"
      · rw [if_neg h1, if_pos h2]
      · by_cases h3 : truthyStr r.audio_file_path = true ∧ (r.audio_file_path.getD "") ∈ st.files
        · rw [if_neg h1, if_neg h2, if_pos h3]
          exact finishWithAudio_store_ne o orig (some r) _ st h
        · rw [if_neg h1, if_neg h2, if_neg h3]
          exact acquireFresh_store_ne o orig (some r) st h

/-! ### Lemmas: evaluation of the external-call wrappers -/

lemma download_audio_eq_error {o : Oracles} {i e : String} (st : PipelineState)
    (h : o.download i = .error e) :
    download_audio o i st =
      ({ st with downloads := st.downloads + 1 },
       .error ("Failed to download audio: " ++ e)) := by
  simp [download_audio, h]

lemma download_audio_eq_ok {o : Oracles} {i p : String} (st : PipelineState)
    (h : o.download i = .ok p) :
    download_audio o i st =
      ({ st with downloads := st.downloads + 1, files := p :: st.files },
       .ok p) := by
  simp [download_audio, h]

lemma transcribe_audio_eq_error {o : Oracles} {p e : String} (st : PipelineState)
    (h : o.transcribe p = .error e) :
    transcribe_audio o p st =
      ({ st with transcriptions := st.transcriptions + 1 },
       .error ("Failed to transcribe audio: " ++ e)) := by
  simp [transcribe_audio, h]

lemma transcribe_audio_eq_ok {o : Oracles} {p t : String} (st : PipelineState)
    (h : o.transcribe p = .ok t) :
    transcribe_audio o p st =
      ({ st with transcriptions := st.transcriptions + 1 }, .ok t) := by
  simp [transcribe_audio, h]

/-! ### Lemmas: a success-list cell leaves behind a cached success record -/

lemma finishWithAudio_ok_post {o : Oracles} {id orig : String}
    {db : Option VideoRecord} {path : String} {st st' : PipelineState}
    {c : TranscriptResponse}
    (hne : transcriptsNonEmpty o)
    (hpres : ∃ rr, get_video_record id st.store = some rr)
    (h : finishWithAudio o id orig db path st = (st', .ok c)) :
    ∃ r', get_video_record id st'.store = some r' ∧
      r'.status = "success" ∧ truthyStr r'.transcript = true := by
  obtain ⟨rr, hrr⟩ := hpres
  unfold finishWithAudio at h
  cases htr : o.transcribe path with
  | error e =>
    rw [transcribe_audio_eq_error st htr] at h
    simp only [handleFailure] at h
    exact absurd h (by simp)
  | ok t =>
    have htne : t ≠ "" := hne path t htr
    rw [transcribe_audio_eq_ok st htr] at h
    simp only at h
    split at h
    · simp only [Prod.mk.injEq] at h
      obtain ⟨hst, _⟩ := h
      subst hst
      refine ⟨{ mergeFields (some "success") (some t) none none rr
                  with audio_file_path := none }, ?_, ?_, ?_⟩
      · simp [get_delete, get_update, hrr]
      · simp [mergeFields]
      · simp [mergeFields, updOpt, truthyStr, htne]
    · simp only [Prod.mk.injEq] at h
      obtain ⟨hst, _⟩ := h
      subst hst
      refine ⟨mergeFields (some "success") (some t) none none rr, ?_, ?_, ?_⟩
      · simp [get_update, hrr]
      · simp [mergeFields]
      · simp [mergeFields, updOpt, truthyStr, htne]

lemma acquireFresh_ok_post {o : Oracles} {id orig : String}
    {db : Option VideoRecord} {st st' : PipelineState} {c : TranscriptResponse}
    (hne : transcriptsNonEmpty o)
    (h : acquireFresh o id orig db st = (st', .ok c)) :
    ∃ r', get_video_record id st'.store = some r' ∧
      r'.status = "success" ∧ truthyStr r'.transcript = true := by
  unfold acquireFresh at h
  cases hdl : o.download id with
  | error e =>
    simp only [download_audio_eq_error _ hdl] at h
    simp only [handleFailure] at h
    exact absurd h (by simp)
  | ok path =>
    simp only [download_audio_eq_ok _ hdl] at h
    apply finishWithAudio_ok_post hne ?_ h
    simp only [get_update, if_pos rfl]
    cases hg : get_video_record id st.store with
    | some r =>
      rw [show create_video_record id orig "processing" st.store = st.store from
        create_noop orig "processing" hg, hg]
      exact ⟨_, rfl⟩
    | none =>
      rw [get_create_self hg]
      exact ⟨_, rfl⟩

lemma processItem_ok_post {o : Oracles} {st st' : PipelineState}
    {id orig : String} {c : TranscriptResponse}
    (hne : transcriptsNonEmpty o)
    (h : processItem o st (id, orig) = (st', .ok c)) :
    ∃ r', get_video_record id st'.store = some r' ∧
      r'.status = "success" ∧ truthyStr r'.transcript = true := by
  unfold processItem at h
  cases hg : get_video_record id st.store with
  | none =>
    simp only [hg] at h
    exact acquireFresh_ok_post hne h
  | some r =>
    simp only [hg] at h
    by_cases h1 : r.status = "success" ∧ truthyStr r.transcript = true
    · rw [if_pos h1] at h
      simp only [Prod.mk.injEq] at h
      obtain ⟨hst, _⟩ := h
      subst hst
      exact ⟨r, hg, h1.1, h1.2⟩
    · rw [if_neg h1] at h
      by_cases h2 : r.status = "failed"
      · rw [if_pos h2] at h
        exact absurd h (by simp)
      · rw [if_neg h2] at h
        by_cases h3 : truthyStr r.audio_file_path = true ∧ (r.audio_file_path.getD "") ∈ st.files
        · rw [if_pos h3] at h
          exact finishWithAudio_ok_post hne ⟨r, hg⟩ h
        · rw [if_neg h3] at h
          exact acquireFresh_ok_post hne h

/-! ### Lemmas: the batch loop -/

lemma runItems_append (o : Oracles) (l1 l2 : List (String × String)) :
    ∀ st : PipelineState,
    runItems o st (l1 ++ l2) =
      ((runItems o (runItems o st l1).1 l2).1,
       (runItems o st l1).2.1 ++ (runItems o (runItems o st l1).1 l2).2.1,
       (runItems o st l1).2.2 ++ (runItems o (runItems o st l1).1 l2).2.2) := by
  induction l1 with
  | nil => intro st; simp [runItems]
  | cons it rest ih =>
    intro st
    rcases hpi : processItem o st it with ⟨st1, res⟩
    rcases hri : runItems o st1 (rest ++ l2) with ⟨st2, ss, es⟩
    rw [ih st1] at hri
    rcases hr1 : runItems o st1 rest with ⟨a1, b1, c1⟩
    rw [hr1] at hri
    rcases hr2 : runItems o a1 l2 with ⟨a2, b2, c2⟩
    rw [hr2] at hri
    cases res <;>
      simp_all [runItems, List.cons_append, hpi]

lemma runItems_store_ne {o : Oracles} {k : String} {items : List (String × String)}
    (h : ∀ it ∈ items, k ≠ it.1) : ∀ {st : PipelineState},
    get_video_record k (runItems o st items).1.store = get_video_record k st.store := by
  induction items with
  | nil => intro st; simp [runItems]
  | cons it rest ih =>
    intro st
    rcases hpi : processItem o st it with ⟨st1, res⟩
    rcases hri : runItems o st1 rest with ⟨st2, ss, es⟩
    have h1 : get_video_record k st1.store = get_video_record k st.store := by
      have hh := @processItem_store_ne k o st it (h it (List.mem_cons_self it rest))
      rwa [hpi] at hh
    have h2 : get_video_record k st2.store = get_video_record k st1.store := by
      have hh := @ih (fun x hx => h x (List.mem_cons_of_mem it hx)) st1
      rwa [hri] at hh
    cases res <;> simp [runItems, hpi, hri] <;> rw [h2, h1]

lemma runItems_no_errors_post {o : Oracles}
    (hne : transcriptsNonEmpty o) : ∀ {items : List (String × String)}
    {st st' : PipelineState} {ss : List TranscriptResponse},
    (items.map Prod.fst).Nodup →
    runItems o st items = (st', ss, []) →
    ∀ it ∈ items, ∃ r', get_video_record it.1 st'.store = some r' ∧
      r'.status = "success" ∧ truthyStr r'.transcript = true := by
  intro items
  induction items with
  | nil =>
    intro st st' ss _ _ it hit
    cases hit
  | cons hd rest ih =>
    intro st st' ss hnd hrun it hit
    rcases hd with ⟨hid, horig⟩
    rcases hpi : processItem o st (hid, horig) with ⟨st1, res⟩
    rcases hri : runItems o st1 rest with ⟨st2, ss2, es2⟩
    cases res with
    | err c =>
      rw [show runItems o st ((hid, horig) :: rest) = (st2, ss2, c :: es2) from by
        simp [runItems, hpi, hri]] at hrun
      simp only [Prod.mk.injEq] at hrun
      exact absurd hrun.2.2 (by simp)
    | ok c =>
      rw [show runItems o st ((hid, horig) :: rest) = (st2, c :: ss2, es2) from by
        simp [runItems, hpi, hri]] at hrun
      simp only [Prod.mk.injEq] at hrun
      obtain ⟨h1, _, h3⟩ := hrun
      subst h1
      rcases List.mem_cons.mp hit with hit | hit
      · subst hit
        obtain ⟨r', hr', hs', ht'⟩ := processItem_ok_post hne hpi
        refine ⟨r', ?_, hs', ht'⟩
        have hpre : ∀ x ∈ rest, (hid, horig).1 ≠ x.1 := by
          intro x hx he
          rw [List.map_cons, List.nodup_cons] at hnd
          refine hnd.1 ?_
          rw [show (hid, horig).1 = x.1 from he]
          exact List.mem_map_of_mem Prod.fst hx
        have hh := @runItems_store_ne o (hid, horig).1 rest hpre st1
        rw [hri] at hh
        rw [hh]
        exact hr'
      · have hnd' : (rest.map Prod.fst).Nodup := by
          rw [List.map_cons, List.nodup_cons] at hnd
          exact hnd.2
        subst h3
        exact ih hnd' hri it hit

lemma runItems_cached {o : Oracles} {id orig : String} {r : VideoRecord}
    {res0 : ItemResult}
    (hloc : ∀ st1 : PipelineState, get_video_record id st1.store = some r →
      processItem o st1 (id, orig) = (st1, res0)) :
    ∀ {items : List (String × String)} {st : PipelineState},
    (items.map Prod.fst).Nodup →
    (id, orig) ∈ items →
    get_video_record id st.store = some r →
    get_video_record id (runItems o st items).1.store = some r ∧
    (∀ c, res0 = .ok c → c ∈ (runItems o st items).2.1) ∧
    (∀ c, res0 = .err c → c ∈ (runItems o st items).2.2) := by
  intro items
  induction items with
  | nil =>
    intro st _ hmem _
    cases hmem
  | cons hd rest ih =>
    intro st hnd hmem hget
    rcases List.mem_cons.mp hmem with hhd | htl
    · subst hhd
      have hpi := hloc st hget
      rcases hri : runItems o st rest with ⟨st2, ss2, es2⟩
      have hpre : ∀ x ∈ rest, id ≠ x.1 := by
        intro x hx he
        rw [List.map_cons, List.nodup_cons] at hnd
        refine hnd.1 ?_
        rw [show (id, orig).1 = x.1 from he]
        exact List.mem_map_of_mem Prod.fst hx
      have hkeep : get_video_record id st2.store = some r := by
        have hh := @runItems_store_ne o id rest hpre st
        rw [hri] at hh
        rw [hh]
        exact hget
      cases res0 with
      | ok c =>
        rw [show runItems o st ((id, orig) :: rest) = (st2, c :: ss2, es2) from by
          simp [runItems, hpi, hri]]
        refine ⟨hkeep, ?_, ?_⟩
        · intro c' hc'
          cases hc'
          exact List.mem_cons_self c ss2
        · intro c' hc'
          cases hc'
      | err c =>
        rw [show runItems o st ((id, orig) :: rest) = (st2, ss2, c :: es2) from by
          simp [runItems, hpi, hri]]
        refine ⟨hkeep, ?_, ?_⟩
        · intro c' hc'
          cases hc'
        · intro c' hc'
          cases hc'
          exact List.mem_cons_self c es2
    · rcases hd with ⟨hdi, hdo⟩
      have hif : id ≠ hdi := by
        intro he
        rw [List.map_cons, List.nodup_cons] at hnd
        refine hnd.1 ?_
        rw [show (hdi, hdo).1 = id from he.symm]
        exact List.mem_map_of_mem Prod.fst htl
      rcases hpi : processItem o st (hdi, hdo) with ⟨st1, res⟩
      rcases hri : runItems o st1 rest with ⟨st2, ss2, es2⟩
      have hget1 : get_video_record id st1.store = some r := by
        have hh := @processItem_store_ne id o st (hdi, hdo) hif
        rw [hpi] at hh
        rw [hh]
        exact hget
      have hnd' : (rest.map Prod.fst).Nodup := by
        rw [List.map_cons, List.nodup_cons] at hnd
        exact hnd.2
      have hih := ih hnd' htl hget1
      rw [hri] at hih
      cases res with
      | ok c =>
        rw [show runItems o st ((hdi, hdo) :: rest) = (st2, c :: ss2, es2) from by
          simp [runItems, hpi, hri]]
        refine ⟨hih.1, ?_, ?_⟩
        · intro c' hc'
          exact List.mem_cons_of_mem c (hih.2.1 c' hc')
        · intro c' hc'
          exact hih.2.2 c' hc'
      | err c =>
        rw [show runItems o st ((hdi, hdo) :: rest) = (st2, ss2, c :: es2) from by
          simp [runItems, hpi, hri]]
        refine ⟨hih.1, ?_, ?_⟩
        · intro c' hc'
          exact hih.2.1 c' hc'
        · intro c' hc'
          exact List.mem_cons_of_mem c (hih.2.2 c' hc')

lemma runItems_all_cached {o : Oracles} : ∀ {items : List (String × String)}
    {st : PipelineState},
    (∀ it ∈ items, ∃ r, get_video_record it.1 st.store = some r ∧
      r.status = "success" ∧ truthyStr r.transcript = true) →
    ∃ ss, runItems o st items = (st, ss, []) ∧ ∀ c ∈ ss, c.from_cache = true := by
  intro items
  induction items with
  | nil =>
    intro st _
    exact ⟨[], by simp [runItems], by simp⟩
  | cons hd rest ih =>
    intro st h
    rcases hd with ⟨hid, horig⟩
    obtain ⟨r, hget, hs, ht⟩ := h (hid, horig) (List.mem_cons_self _ rest)
    have hpi := @processItem_cached_success o st hid horig _ hget hs ht
    obtain ⟨ss2, hri, hcache⟩ := @ih st
      (fun x hx => h x (List.mem_cons_of_mem _ hx))
    refine ⟨{ video_id := hid, video_url := some (pyOr r.video_url horig),
              transcript := r.transcript.getD "", status := "success",
              from_cache := true } :: ss2, ?_, ?_⟩
    · simp [runItems, hpi, hri]
    · intro c hc
      rcases List.mem_cons.mp hc with hc | hc
      · rw [hc]
      · exact hcache c hc

lemma transcribe_videos_ok_inv {o : Oracles} {env : Option String}
    {req : VideoRequest} {st st' : PipelineState} {resp : TranscriptionResponse}
    (h : transcribe_videos o env req st = .ok (resp, st')) :
    runItems o st (normalize_video_input req.video_ids req.video_urls req.videos)
      = (st', resp.success, resp.errors) := by
  unfold transcribe_videos at h
  by_cases h1 : ¬ (listTruthy req.videos || listTruthy req.video_ids || listTruthy req.video_urls) = true
  · rw [if_pos h1] at h
    exact absurd h (by simp)
  · rw [if_neg h1] at h
    by_cases h2 : ¬ truthyStr (resolved_api_key req.deepgram_api_key env) = true
    · rw [if_pos h2] at h
      exact absurd h (by simp)
    · rw [if_neg h2] at h
      rcases hr : runItems o st (normalize_video_input req.video_ids req.video_urls req.videos)
        with ⟨a, b, c⟩
      rw [hr] at h
      simp only [Except.ok.injEq, Prod.mk.injEq] at h
      obtain ⟨hresp, hst⟩ := h
      subst hst
      rw [← hresp]

/-! ### Claim theorems: request validation, cached failure, isolation -/

/-- C7: when all three input lists are absent or empty, `/transcribe`
fails with the InvalidRequest error (HTTP 400); the result is the error
value alone, computed before and independent of any record-store read,
record creation, or oracle call — it is the same for every oracle and
every starting state. -/
theorem transcribe_videos_invalid_request (o : Oracles) (env : Option String)
    (req : VideoRequest) (st : PipelineState)
    (h1 : listTruthy req.videos = false) (h2 : listTruthy req.video_ids = false)
    (h3 : listTruthy req.video_urls = false) :
    transcribe_videos o env req st =
      .error { status_code := 400,
               detail := "At least one of 'videos', 'video_ids', or 'video_urls' must be provided" } := by
  unfold transcribe_videos
  rw [if_pos]
  simp [h1, h2, h3]

/-- Witness for C7: a request with three absent lists is rejected. -/
theorem transcribe_videos_invalid_request_witness :
    transcribe_videos oracleHello none
      { videos := none, video_ids := none, video_urls := none,
        deepgram_api_key := some "k" } emptyState =
      .error { status_code := 400,
               detail := "At least one of 'videos', 'video_ids', or 'video_urls' must be provided" } :=
  transcribe_videos_invalid_request oracleHello none _ emptyState rfl rfl rfl

/-- C2: a batch item whose record has status `failed` is answered from
the cache: the loop iteration returns the stored error message in an
error cell and changes nothing at all (no store mutation, no artifact
acquisition, no transcription); at batch level the `/transcribe` response
carries that cell in its error list and the record survives the whole
batch unchanged. -/
theorem transcribe_cached_failure :
    (∀ (o : Oracles) (st : PipelineState) (id orig m : String) (r : VideoRecord),
      get_video_record id st.store = some r → r.status = "failed" →
      r.error_message = some m →
      processItem o st (id, orig) =
        (st, .err { video_id := id, video_url := some (pyOr r.video_url orig),
                    error := m, status := "error" })) ∧
    (∀ (o : Oracles) (env : Option String) (req : VideoRequest)
       (st st' : PipelineState) (resp : TranscriptionResponse)
       (id orig m : String) (r : VideoRecord),
      transcribe_videos o env req st = .ok (resp, st') →
      (id, orig) ∈ normalize_video_input req.video_ids req.video_urls req.videos →
      get_video_record id st.store = some r → r.status = "failed" →
      r.error_message = some m →
      ({ video_id := id, video_url := some (pyOr r.video_url orig),
         error := m, status := "error" } : ErrorResponse) ∈ resp.errors ∧
      get_video_record id st'.store = some r) := by
  have hcell : ∀ (o : Oracles) (st : PipelineState) (id orig m : String) (r : VideoRecord),
      get_video_record id st.store = some r → r.status = "failed" →
      r.error_message = some m →
      processItem o st (id, orig) =
        (st, .err { video_id := id, video_url := some (pyOr r.video_url orig),
                    error := m, status := "error" }) := by
    intro o st id orig m r hg hf hm
    have hh := @processItem_cached_failed o st id orig r hg hf
    rw [hm] at hh
    exact hh
  refine ⟨hcell, ?_⟩
  intro o env req st st' resp id orig m r hok hmem hg hf hm
  have hinv := transcribe_videos_ok_inv hok
  have hloc : ∀ st1 : PipelineState, get_video_record id st1.store = some r →
      processItem o st1 (id, orig) =
        (st1, .err { video_id := id, video_url := some (pyOr r.video_url orig),
                     error := m, status := "error" }) :=
    fun st1 hg1 => hcell o st1 id orig m r hg1 hf hm
  have hnd : ((normalize_video_input req.video_ids req.video_urls req.videos).map
      Prod.fst).Nodup := dedupLoop_keys_nodup [] _
  have hres := runItems_cached hloc hnd hmem hg
  rw [hinv] at hres
  exact ⟨hres.2.2 _ rfl, hres.1⟩

/-- Witness for C2 at a concrete one-record store. -/
theorem transcribe_cached_failure_witness :
    processItem oracleHello failedState ("aaaaaaaaaaa", "aaaaaaaaaaa") =
      (failedState,
       .err { video_id := "aaaaaaaaaaa",
              video_url := some (pyOr (some "aaaaaaaaaaa") "aaaaaaaaaaa"),
              error := "boom", status := "error" }) :=
  transcribe_cached_failure.1 oracleHello failedState "aaaaaaaaaaa" "aaaaaaaaaaa"
    "boom"
    { video_url := some "aaaaaaaaaaa", status := "failed", transcript := none,
      audio_file_path := none, error_message := some "boom" }
    (by decide) rfl rfl

/-- C5: one item's failure never prevents the rest of the batch — the
loop over `l1 ++ l2` always runs `l2` from the state `l1` left behind
and appends the per-part success and error lists; concretely, for a
three-item batch whose second item's acquisition throws, `/transcribe`
returns the first and third items in the success list and exactly the
second item in the error list. -/
theorem transcribe_failure_isolation :
    (∀ (o : Oracles) (st : PipelineState) (l1 l2 : List (String × String)),
      runItems o st (l1 ++ l2) =
        ((runItems o (runItems o st l1).1 l2).1,
         (runItems o st l1).2.1 ++ (runItems o (runItems o st l1).1 l2).2.1,
         (runItems o st l1).2.2 ++ (runItems o (runItems o st l1).1 l2).2.2)) ∧
    ((transcribe_videos oracleFailB none
        (reqOf ["aaaaaaaaaaa", "bbbbbbbbbbb", "ccccccccccc"]) emptyState).toOption.map
        (fun p => (p.1.success.map (fun c => c.video_id),
                   p.1.errors.map (fun c => c.video_id))) =
      some (["aaaaaaaaaaa", "ccccccccccc"], ["bbbbbbbbbbb"])) :=
  ⟨fun o st l1 l2 => runItems_append o l1 l2 st, by decide⟩

/-- C4's failing input evaluated: a fresh item whose acquisition (first
run) or transcription (second run) throws ends in the error list with
the error text and keeps its staged artifact, but its record is left
with status `processing` — the exception handler's insert-or-ignore of
a `failed` row is a no-op because the iteration already created the
`processing` row, and the subsequent update sets only `error_message`. -/
theorem transcribe_fresh_failure_evaluation :
    ((transcribe_videos oracleFailB none (reqOf ["bbbbbbbbbbb"]) emptyState).toOption.map
        (fun p => (p.1.errors.map (fun c => (c.video_id, c.error)),
                   (get_video_record "bbbbbbbbbbb" p.2.store).map
                     (fun r => (r.status, r.error_message)))) =
      some ([("bbbbbbbbbbb", "Failed to download audio: boom")],
            some ("processing", some "Failed to download audio: boom"))) ∧
    ((transcribe_videos oracleTFail none (reqOf ["aaaaaaaaaaa"]) emptyState).toOption.map
        (fun p => (p.2.files,
                   (get_video_record "aaaaaaaaaaa" p.2.store).map
                     (fun r => (r.status, r.audio_file_path, r.error_message)))) =
      some (["aaaaaaaaaaa.mp3"],
            some ("processing", some "aaaaaaaaaaa.mp3",
                  some "Failed to transcribe audio: tboom"))) := by
  constructor <;> decide

/-! ### Lemmas: the data-model invariant through each store operation -/

lemma truthyStr_getD_ne {x : Option String} (h : truthyStr x = true) :
    x.getD "" ≠ "" := by
  cases x with
  | none => simp [truthyStr] at h
  | some s => simpa [truthyStr] using h

lemma storeInv_update_fail {s : Store} {id m : String} (h : storeInv s) :
    storeInv (update_video_record id (some "failed") none none (some m) s) := by
  intro k r hk
  rw [get_update] at hk
  by_cases hki : k = id
  · rw [if_pos hki] at hk
    cases hgs : get_video_record k s with
    | none => rw [hgs] at hk; cases hk
    | some r0 =>
      rw [hgs, Option.map_some'] at hk
      injection hk with hk
      intro hsuc
      rw [← hk] at hsuc
      exact absurd hsuc (by simp [mergeFields])
  · rw [if_neg hki] at hk
    exact h k r hk

lemma storeInv_update_errOnly {s : Store} {id m : String} (h : storeInv s) :
    storeInv (update_video_record id none none none (some m) s) := by
  intro k r hk
  rw [get_update] at hk
  by_cases hki : k = id
  · rw [if_pos hki] at hk
    cases hgs : get_video_record k s with
    | none => rw [hgs] at hk; cases hk
    | some r0 =>
      rw [hgs, Option.map_some'] at hk
      injection hk with hk
      intro hsuc
      rw [← hk] at hsuc ⊢
      simp only [mergeFields, Option.getD, updOpt] at hsuc ⊢
      exact h k r0 hgs hsuc
  · rw [if_neg hki] at hk
    exact h k r hk

lemma storeInv_update_audio {s : Store} {id p : String} (h : storeInv s)
    (hns : ∀ r0, get_video_record id s = some r0 → r0.status ≠ "success") :
    storeInv (update_video_record id none none (some p) none s) := by
  intro k r hk
  rw [get_update] at hk
  by_cases hki : k = id
  · rw [if_pos hki] at hk
    cases hgs : get_video_record k s with
    | none => rw [hgs] at hk; cases hk
    | some r0 =>
      rw [hgs, Option.map_some'] at hk
      injection hk with hk
      intro hsuc
      rw [← hk] at hsuc
      simp only [mergeFields, Option.getD] at hsuc
      exact absurd hsuc (hns r0 (hki ▸ hgs))
  · rw [if_neg hki] at hk
    exact h k r hk

lemma storeInv_create {s : Store} {id u stt : String} (h : storeInv s)
    (hstt : stt ≠ "success") :
    storeInv (create_video_record id u stt s) := by
  intro k r hk
  cases hg : get_video_record id s with
  | some r1 =>
    rw [create_noop u stt hg] at hk
    exact h k r hk
  | none =>
    by_cases hki : k = id
    · subst hki
      rw [get_create_self hg] at hk
      injection hk with hk
      intro hsuc
      rw [← hk] at hsuc
      exact absurd hsuc (by simpa [freshRecord] using hstt)
    · unfold create_video_record at hk
      rw [hg] at hk
      rw [get_append_singleton hki _ s] at hk
      exact h k r hk

lemma storeInv_success_update {s : Store} {id t : String} (h : storeInv s)
    (ht : t ≠ "") :
    storeInv (delete_audio_file_path id
      (update_video_record id (some "success") (some t) none none s)) := by
  intro k r hk
  rw [get_delete] at hk
  by_cases hki : k = id
  · rw [if_pos hki, get_update, if_pos hki] at hk
    cases hgs : get_video_record k s with
    | none => rw [hgs] at hk; cases hk
    | some r0 =>
      rw [hgs, Option.map_some', Option.map_some'] at hk
      injection hk with hk
      intro _
      rw [← hk]
      refine ⟨?_, rfl⟩
      simp [mergeFields, updOpt, truthyStr, ht]
  · rw [if_neg hki, get_update, if_neg hki] at hk
    exact h k r hk

/-! ### Lemmas: the data-model invariant through each pipeline step -/

lemma handleFailure_inv {id orig : String} {db : Option VideoRecord}
    {msg : String} {st : PipelineState} (h : storeInv st.store) :
    storeInv (handleFailure id orig db msg st).1.store := by
  unfold handleFailure
  cases db with
  | some r =>
    by_cases hs : r.status ≠ "failed"
    · simp only [if_pos hs]
      exact storeInv_update_fail h
    · simp only [if_neg hs]
      exact h
  | none =>
    exact storeInv_update_errOnly (storeInv_create h (by decide))

lemma finishWithAudio_inv {o : Oracles} {id orig : String}
    {db : Option VideoRecord} {path : String} {st : PipelineState}
    (hne : transcriptsNonEmpty o) (h : storeInv st.store)
    (hguard : path ≠ "" ∧ path ∈ st.files) :
    storeInv (finishWithAudio o id orig db path st).1.store := by
  unfold finishWithAudio
  cases htr : o.transcribe path with
  | error e =>
    simp only [transcribe_audio_eq_error st htr]
    exact handleFailure_inv h
  | ok t =>
    simp only [transcribe_audio_eq_ok st htr]
    rw [if_pos hguard]
    exact storeInv_success_update h (hne path t htr)

lemma acquireFresh_inv {o : Oracles} {id orig : String}
    {db : Option VideoRecord} {st : PipelineState}
    (hne : transcriptsNonEmpty o) (hpne : pathsNonEmpty o)
    (h : storeInv st.store)
    (hns : ∀ r0, get_video_record id st.store = some r0 → r0.status ≠ "success") :
    storeInv (acquireFresh o id orig db st).1.store := by
  have hcreate : storeInv (create_video_record id orig "processing" st.store) :=
    storeInv_create h (by decide)
  have hnsc : ∀ r0,
      get_video_record id (create_video_record id orig "processing" st.store) = some r0 →
      r0.status ≠ "success" := by
    intro r0 hr0
    cases hg : get_video_record id st.store with
    | some r1 =>
      rw [create_noop orig "processing" hg, hg] at hr0
      injection hr0 with hr0
      rw [← hr0]
      exact hns r1 hg
    | none =>
      rw [get_create_self hg] at hr0
      injection hr0 with hr0
      rw [← hr0]
      simp [freshRecord]
  unfold acquireFresh
  cases hdl : o.download id with
  | error e =>
    simp only [download_audio_eq_error _ hdl]
    exact handleFailure_inv hcreate
  | ok path =>
    simp only [download_audio_eq_ok _ hdl]
    exact finishWithAudio_inv hne (storeInv_update_audio hcreate hnsc)
      ⟨hpne id path hdl, List.mem_cons_self path _⟩

lemma processItem_inv {o : Oracles} {st : PipelineState} {it : String × String}
    (hne : transcriptsNonEmpty o) (hpne : pathsNonEmpty o)
    (h : storeInv st.store) :
    storeInv (processItem o st it).1.store := by
  rcases it with ⟨id, orig⟩
  unfold processItem
  cases hg : get_video_record id st.store with
  | none =>
    simp only [hg]
    refine acquireFresh_inv hne hpne h ?_
    intro r0 hr0
    rw [hg] at hr0
    cases hr0
  | some r =>
    simp only [hg]
    by_cases h1 : r.status = "success" ∧ truthyStr r.transcript = true
    · rw [if_pos h1]
      exact h
    · rw [if_neg h1]
      have hns : r.status ≠ "success" := by
        intro hsuc
        exact h1 ⟨hsuc, (h id r hg hsuc).1⟩
      by_cases h2 : r.status = "failed"
      · rw [if_pos h2]
        exact h
      · rw [if_neg h2]
        by_cases h3 : truthyStr r.audio_file_path = true ∧
            (r.audio_file_path.getD "") ∈ st.files
        · rw [if_pos h3]
          exact finishWithAudio_inv hne h ⟨truthyStr_getD_ne h3.1, h3.2⟩
        · rw [if_neg h3]
          refine acquireFresh_inv hne hpne h ?_
          intro r0 hr0
          rw [hg] at hr0
          injection hr0 with hr0
          rw [← hr0]
          exact hns

lemma runItems_inv {o : Oracles}
    (hne : transcriptsNonEmpty o) (hpne : pathsNonEmpty o) :
    ∀ {items : List (String × String)} {st : PipelineState},
    storeInv st.store → storeInv (runItems o st items).1.store := by
  intro items
  induction items with
  | nil =>
    intro st h
    simpa [runItems] using h
  | cons it rest ih =>
    intro st h
    rcases hpi : processItem o st it with ⟨st1, res⟩
    rcases hri : runItems o st1 rest with ⟨st2, ss, es⟩
    have h1 : storeInv st1.store := by
      have hh := @processItem_inv o st it hne hpne h
      rwa [hpi] at hh
    have h2 : storeInv st2.store := by
      have hh := @ih st1 h1
      rwa [hri] at hh
    cases res <;> simpa [runItems, hpi, hri] using h2

/-- C3 fails as stated: when the provider returns an empty transcript, a
pipeline run leaves a record whose status is `success` while its
transcript is the empty string — not non-empty. -/
theorem store_invariant_counterexample :
    ((transcribe_videos oracleEmpty none (reqOf ["aaaaaaaaaaa"]) emptyState).toOption.map
        (fun p => (get_video_record "aaaaaaaaaaa" p.2.store).map
          (fun r => (r.status, r.transcript, r.audio_file_path))) =
      some (some ("success", some "", none))) ∧
    truthyStr (some "") = false := by
  constructor <;> decide

/-- C3 (amended): provided the transcription provider never returns an
empty transcript and acquisition never reports an empty path, every
record with `status = success` keeps a non-empty transcript and a
cleared `artifactPath`, and this invariant is preserved by each loop
iteration and by every whole `/transcribe` run. -/
theorem store_invariant_preserved :
    (∀ (o : Oracles) (st : PipelineState) (it : String × String),
      transcriptsNonEmpty o → pathsNonEmpty o → storeInv st.store →
      storeInv (processItem o st it).1.store) ∧
    (∀ (o : Oracles) (env : Option String) (req : VideoRequest)
       (st st' : PipelineState) (resp : TranscriptionResponse),
      transcriptsNonEmpty o → pathsNonEmpty o → storeInv st.store →
      transcribe_videos o env req st = .ok (resp, st') →
      storeInv st'.store) := by
  constructor
  · intro o st it hne hpne h
    exact processItem_inv hne hpne h
  · intro o env req st st' resp hne hpne h hok
    have hinv := transcribe_videos_ok_inv hok
    have hh := @runItems_inv o hne hpne
      (normalize_video_input req.video_ids req.video_urls req.videos) st h
    rwa [hinv] at hh

/-- Witness for the amended C3: one fresh item processed from the empty
store under an oracle with non-empty transcripts and paths. -/
theorem store_invariant_preserved_witness :
    storeInv (processItem oracleHello emptyState ("aaaaaaaaaaa", "aaaaaaaaaaa")).1.store :=
  store_invariant_preserved.1 oracleHello emptyState ("aaaaaaaaaaa", "aaaaaaaaaaa")
    (fun p t ht => by
      simp only [oracleHello, Except.ok.injEq] at ht
      rw [← ht]
      decide)
    (fun i p hp => by
      simp only [oracleHello, Except.ok.injEq] at hp
      intro hemp
      rw [← hp] at hemp
      have hlen := congrArg String.length hemp
      rw [String.length_append] at hlen
      rw [show ((".mp3" : String)).length = 4 from rfl,
        show (("" : String)).length = 0 from rfl] at hlen
      omega)
    (fun k r hk => by
      simp [emptyState, get_video_record] at hk)

/-! ### Lemmas: counters and cells of the reprocessing paths -/

lemma handleFailure_state (id orig : String) (db : Option VideoRecord)
    (msg : String) (st : PipelineState) :
    (handleFailure id orig db msg st).1.files = st.files ∧
    (handleFailure id orig db msg st).1.downloads = st.downloads ∧
    (handleFailure id orig db msg st).1.transcriptions = st.transcriptions :=
  ⟨rfl, rfl, rfl⟩

lemma finishWithAudio_counters (o : Oracles) (id orig : String)
    (db : Option VideoRecord) (path : String) (st : PipelineState) :
    (finishWithAudio o id orig db path st).1.downloads = st.downloads ∧
    (finishWithAudio o id orig db path st).1.transcriptions = st.transcriptions + 1 := by
  unfold finishWithAudio
  cases htr : o.transcribe path with
  | error e =>
    simp only [transcribe_audio_eq_error st htr]
    exact ⟨rfl, rfl⟩
  | ok t =>
    simp only [transcribe_audio_eq_ok st htr]
    split <;> exact ⟨rfl, rfl⟩

lemma acquireFresh_downloads (o : Oracles) (id orig : String)
    (db : Option VideoRecord) (st : PipelineState) :
    (acquireFresh o id orig db st).1.downloads = st.downloads + 1 := by
  unfold acquireFresh
  cases hdl : o.download id with
  | error e =>
    simp only [download_audio_eq_error _ hdl]
    rfl
  | ok path =>
    simp only [download_audio_eq_ok _ hdl]
    exact (finishWithAudio_counters o id orig db path _).1

lemma finishWithAudio_ok_not_cache {o : Oracles} {id orig : String}
    {db : Option VideoRecord} {path : String} {st st' : PipelineState}
    {c : TranscriptResponse}
    (h : finishWithAudio o id orig db path st = (st', .ok c)) :
    c.from_cache = false := by
  unfold finishWithAudio at h
  cases htr : o.transcribe path with
  | error e =>
    simp only [transcribe_audio_eq_error st htr, handleFailure] at h
    exact absurd h (by simp)
  | ok t =>
    simp only [transcribe_audio_eq_ok st htr] at h
    split at h <;>
    · simp only [Prod.mk.injEq] at h
      obtain ⟨_, hc⟩ := h
      cases hc
      rfl

lemma acquireFresh_ok_not_cache {o : Oracles} {id orig : String}
    {db : Option VideoRecord} {st st' : PipelineState} {c : TranscriptResponse}
    (h : acquireFresh o id orig db st = (st', .ok c)) :
    c.from_cache = false := by
  unfold acquireFresh at h
  cases hdl : o.download id with
  | error e =>
    simp only [download_audio_eq_error _ hdl, handleFailure] at h
    exact absurd h (by simp)
  | ok path =>
    simp only [download_audio_eq_ok _ hdl] at h
    exact finishWithAudio_ok_not_cache h

lemma finishWithAudio_ok_store {o : Oracles} {id orig : String}
    {db : Option VideoRecord} {path t : String} {st : PipelineState}
    (htr : o.transcribe path = .ok t) {rr : VideoRecord}
    (hrr : get_video_record id st.store = some rr) :
    ∃ r', get_video_record id (finishWithAudio o id orig db path st).1.store = some r' ∧
      r'.status = "success" ∧ r'.transcript = some t := by
  unfold finishWithAudio
  simp only [transcribe_audio_eq_ok st htr]
  split
  · refine ⟨{ mergeFields (some "success") (some t) none none rr
        with audio_file_path := none }, ?_, ?_, ?_⟩
    · simp [get_delete, get_update, hrr]
    · simp [mergeFields]
    · simp [mergeFields, updOpt]
  · refine ⟨mergeFields (some "success") (some t) none none rr, ?_, ?_, ?_⟩
    · simp [get_update, hrr]
    · simp [mergeFields]
    · simp [mergeFields, updOpt]

/-- C10: a record whose status is `success` but whose transcript is empty
or null is not served from the cache — the item is re-processed: the
staged artifact is reused (no new acquisition, one transcription call)
when its truthy path still exists on disk, otherwise exactly one fresh
acquisition is attempted; and when the reused artifact transcribes
successfully the record is rewritten with the new transcript. -/
theorem stale_success_reprocessed (o : Oracles) (st : PipelineState)
    (id orig : String) (r : VideoRecord)
    (hg : get_video_record id st.store = some r)
    (hs : r.status = "success") (ht : truthyStr r.transcript = false) :
    (∀ c, (processItem o st (id, orig)).2 = .ok c → c.from_cache = false) ∧
    (truthyStr r.audio_file_path = true ∧ (r.audio_file_path.getD "") ∈ st.files →
      (processItem o st (id, orig)).1.downloads = st.downloads ∧
      (processItem o st (id, orig)).1.transcriptions = st.transcriptions + 1 ∧
      (∀ t, o.transcribe (r.audio_file_path.getD "") = .ok t →
        ∃ r', get_video_record id (processItem o st (id, orig)).1.store = some r' ∧
          r'.status = "success" ∧ r'.transcript = some t)) ∧
    (¬ (truthyStr r.audio_file_path = true ∧ (r.audio_file_path.getD "") ∈ st.files) →
      (processItem o st (id, orig)).1.downloads = st.downloads + 1) := by
  have h1 : ¬ (r.status = "success" ∧ truthyStr r.transcript = true) := by
    rintro ⟨_, htt⟩
    rw [ht] at htt
    cases htt
  have h2 : ¬ r.status = "failed" := by
    rw [hs]
    decide
  have hpe : processItem o st (id, orig) =
      (if truthyStr r.audio_file_path = true ∧ (r.audio_file_path.getD "") ∈ st.files then
        finishWithAudio o id orig (some r) (r.audio_file_path.getD "") st
      else acquireFresh o id orig (some r) st) := by
    unfold processItem
    simp only [hg]
    rw [if_neg h1, if_neg h2]
  refine ⟨?_, ?_, ?_⟩
  · intro c hc
    rw [hpe] at hc
    by_cases h3 : truthyStr r.audio_file_path = true ∧ (r.audio_file_path.getD "") ∈ st.files
    · rw [if_pos h3] at hc
      rcases hfin : finishWithAudio o id orig (some r) (r.audio_file_path.getD "") st
        with ⟨sA, resA⟩
      simp only [hfin] at hc
      subst hc
      exact finishWithAudio_ok_not_cache hfin
    · rw [if_neg h3] at hc
      rcases hfin : acquireFresh o id orig (some r) st with ⟨sA, resA⟩
      simp only [hfin] at hc
      subst hc
      exact acquireFresh_ok_not_cache hfin
  · intro h3
    rw [hpe, if_pos h3]
    refine ⟨(finishWithAudio_counters o id orig (some r) _ st).1,
      (finishWithAudio_counters o id orig (some r) _ st).2, ?_⟩
    intro t htr
    exact finishWithAudio_ok_store htr hg
  · intro h3
    rw [hpe, if_neg h3]
    exact acquireFresh_downloads o id orig (some r) st

/-- Witness for C10: a success record with an empty transcript and no
staged artifact triggers exactly one fresh acquisition. -/
theorem stale_success_reprocessed_witness :
    (processItem oracleHello staleState ("aaaaaaaaaaa", "aaaaaaaaaaa")).1.downloads
      = staleState.downloads + 1 :=
  (stale_success_reprocessed oracleHello staleState "aaaaaaaaaaa" "aaaaaaaaaaa"
    { video_url := some "aaaaaaaaaaa", status := "success",
      transcript := some "", audio_file_path := none, error_message := none }
    (by decide) rfl (by decide)).2.2 (by decide)

/-! ### Lemmas: validation conditions of a successful endpoint call -/

lemma transcribe_videos_ok_valid {o : Oracles} {env : Option String}
    {req : VideoRequest} {st : PipelineState}
    {x : TranscriptionResponse × PipelineState}
    (h : transcribe_videos o env req st = .ok x) :
    (listTruthy req.videos || listTruthy req.video_ids || listTruthy req.video_urls) = true ∧
    truthyStr (resolved_api_key req.deepgram_api_key env) = true := by
  unfold transcribe_videos at h
  by_cases h1 : ¬ (listTruthy req.videos || listTruthy req.video_ids || listTruthy req.video_urls) = true
  · rw [if_pos h1] at h
    exact absurd h (by simp)
  · rw [if_neg h1] at h
    by_cases h2 : ¬ truthyStr (resolved_api_key req.deepgram_api_key env) = true
    · rw [if_pos h2] at h
      exact absurd h (by simp)
    · rw [not_not] at h1 h2
      exact ⟨h1, h2⟩

lemma transcribe_videos_eq_ok_of_valid {o : Oracles} {env : Option String}
    {req : VideoRequest} {st st' : PipelineState}
    {ss : List TranscriptResponse} {es : List ErrorResponse}
    (hv1 : (listTruthy req.videos || listTruthy req.video_ids || listTruthy req.video_urls) = true)
    (hv2 : truthyStr (resolved_api_key req.deepgram_api_key env) = true)
    (hr : runItems o st (normalize_video_input req.video_ids req.video_urls req.videos)
      = (st', ss, es)) :
    transcribe_videos o env req st = .ok ({ success := ss, errors := es }, st') := by
  unfold transcribe_videos
  rw [if_neg (by simp [hv1]), if_neg (by simp [hv2]), hr]

/-- C1's resubmission consequence fails as stated: with a provider that
returns an empty transcript, the first run of a one-item batch ends with
an empty error list, yet resubmitting the same batch is not served from
the cache (`fromCache` stays false) and performs one more artifact
acquisition. -/
theorem transcribe_idempotence_counterexample :
    ((transcribe_videos oracleEmpty none (reqOf ["aaaaaaaaaaa"]) emptyState).toOption.bind
      (fun p1 => (transcribe_videos oracleEmpty none (reqOf ["aaaaaaaaaaa"]) p1.2).toOption.map
        (fun p2 => (p1.1.errors.isEmpty,
                    p2.1.success.all (fun c => c.from_cache),
                    p2.2.downloads - p1.2.downloads)))) =
      some (true, false, 1) := by decide

/-- C1 (amended): a batch item whose record is a success with a
non-empty transcript is served from the cache — the loop iteration
returns the stored transcript with `fromCache = true` and changes
nothing (no store mutation, no acquisition, no transcription); at batch
level the cell appears in the response's success list and the record
survives the whole run unchanged.  Consequently — provided the provider
never returns an empty transcript — resubmitting a batch whose first run
ended in success yields `fromCache = true` on every item of the second
run, with an unchanged state (hence zero artifact acquisitions and no
record mutation). -/
theorem transcribe_cached_success_claim :
    (∀ (o : Oracles) (st : PipelineState) (id orig : String) (r : VideoRecord),
      get_video_record id st.store = some r → r.status = "success" →
      truthyStr r.transcript = true →
      processItem o st (id, orig) =
        (st, .ok { video_id := id, video_url := some (pyOr r.video_url orig),
                   transcript := r.transcript.getD "", status := "success",
                   from_cache := true })) ∧
    (∀ (o : Oracles) (env : Option String) (req : VideoRequest)
       (st st' : PipelineState) (resp : TranscriptionResponse)
       (id orig : String) (r : VideoRecord),
      transcribe_videos o env req st = .ok (resp, st') →
      (id, orig) ∈ normalize_video_input req.video_ids req.video_urls req.videos →
      get_video_record id st.store = some r → r.status = "success" →
      truthyStr r.transcript = true →
      ({ video_id := id, video_url := some (pyOr r.video_url orig),
         transcript := r.transcript.getD "", status := "success",
         from_cache := true } : TranscriptResponse) ∈ resp.success ∧
      get_video_record id st'.store = some r) ∧
    (∀ (o : Oracles) (env : Option String) (req : VideoRequest)
       (st st1 : PipelineState) (resp1 : TranscriptionResponse),
      transcriptsNonEmpty o →
      transcribe_videos o env req st = .ok (resp1, st1) →
      resp1.errors = [] →
      ∃ resp2, transcribe_videos o env req st1 = .ok (resp2, st1) ∧
        resp2.errors = [] ∧ ∀ c ∈ resp2.success, c.from_cache = true) := by
  refine ⟨?_, ?_, ?_⟩
  · intro o st id orig r hg hs ht
    exact processItem_cached_success hg hs ht
  · intro o env req st st' resp id orig r hok hmem hg hs ht
    have hinv := transcribe_videos_ok_inv hok
    have hloc : ∀ st1 : PipelineState, get_video_record id st1.store = some r →
        processItem o st1 (id, orig) =
          (st1, .ok { video_id := id, video_url := some (pyOr r.video_url orig),
                      transcript := r.transcript.getD "", status := "success",
                      from_cache := true }) :=
      fun st1 hg1 => processItem_cached_success hg1 hs ht
    have hnd : ((normalize_video_input req.video_ids req.video_urls req.videos).map
        Prod.fst).Nodup := dedupLoop_keys_nodup [] _
    have hres := runItems_cached hloc hnd hmem hg
    rw [hinv] at hres
    exact ⟨hres.2.1 _ rfl, hres.1⟩
  · intro o env req st st1 resp1 hne hok herr
    obtain ⟨hv1, hv2⟩ := transcribe_videos_ok_valid hok
    have hinv := transcribe_videos_ok_inv hok
    rw [herr] at hinv
    have hnd : ((normalize_video_input req.video_ids req.video_urls req.videos).map
        Prod.fst).Nodup := dedupLoop_keys_nodup [] _
    have hpost := runItems_no_errors_post hne hnd hinv
    obtain ⟨ss, hri, hcache⟩ := @runItems_all_cached o
      (normalize_video_input req.video_ids req.video_urls req.videos) st1
      (fun it hit => hpost it hit)
    exact ⟨{ success := ss, errors := [] },
      transcribe_videos_eq_ok_of_valid hv1 hv2 hri, rfl, hcache⟩

/-- Witness for the amended C1 at a concrete one-record cached store. -/
theorem transcribe_cached_success_claim_witness :
    processItem oracleHello cachedState ("aaaaaaaaaaa", "aaaaaaaaaaa") =
      (cachedState,
       .ok { video_id := "aaaaaaaaaaa",
             video_url := some (pyOr (some "aaaaaaaaaaa") "aaaaaaaaaaa"),
             transcript := (some "hello").getD "", status := "success",
             from_cache := true }) :=
  transcribe_cached_success_claim.1 oracleHello cachedState "aaaaaaaaaaa" "aaaaaaaaaaa"
    { video_url := some "aaaaaaaaaaa", status := "success",
      transcript := some "hello", audio_file_path := none, error_message := none }
    (by decide) rfl (by decide)

end YT

section Examples
open YT
example : extract_video_id ("dQw4w9WgXcQ") = "dQw4w9WgXcQ" := by decide
example : extract_video_id ("https://www.youtube.com/watch?v=dQw4w9WgXcQ") = "dQw4w9WgXcQ" := by decide
example : extract_video_id ("https://youtu.be/dQw4w9WgXcQ") = "dQw4w9WgXcQ" := by decide
example : extract_video_id ("https://www.youtube.com/embed/dQw4w9WgXcQ") = "dQw4w9WgXcQ" := by decide
example : extract_video_id ("https://www.youtube.com/v/dQw4w9WgXcQ") = "dQw4w9WgXcQ" := by decide
example : extract_video_id ("https://m.youtube.com/watch?v=dQw4w9WgXcQ") = "dQw4w9WgXcQ" := by decide
example : extract_video_id ("https://www.youtube.com/watch?feature=x&v=dQw4w9WgXcQ") = "dQw4w9WgXcQ" := by decide
example : extract_video_id ("https://youtu.be/abc") = "https://youtu.be/abc" := by decide
example : extract_video_id (" abc ") = "abc" := by decide
example : normalize_video_input none none (some ["abc", "https://youtu.be/abc"]) =
    [("abc", "abc"), ("https://youtu.be/abc", "https://youtu.be/abc")] := by decide
end Examples
